import Mathlib

/-
Shallow embedding of the Catan rules engine (core/board.py, core/player.py,
core/game.py). Python dicts keyed by id are modelled as lists of records with
lookup by first matching id (dict keys are unique, so first-match coincides
with dict access); a raised KeyError is modelled as the value none of an
Option result. Machine integers are Int (resource / structure counters can go
negative in Python) or Nat (ids, turn counter). The float field
HexTile.probability and the unused fields Node.hexes, Node.port and
Player.ports are not used by any modelled operation and are omitted.
-/

namespace Catan

/-- The five resource kinds used as keys of the resource dicts. -/
inductive Resource where
  | brick
  | wood
  | sheep
  | wheat
  | ore
deriving DecidableEq

/-- A player's resource dict: fixed keys brick, wood, sheep, wheat, ore
(Player.__init__), integer amounts (Python ints may go negative). -/
structure Resources where
  brick : Int
  wood : Int
  sheep : Int
  wheat : Int
  ore : Int
deriving DecidableEq

def Resources.get (rs : Resources) : Resource → Int
  | .brick => rs.brick
  | .wood => rs.wood
  | .sheep => rs.sheep
  | .wheat => rs.wheat
  | .ore => rs.ore

def Resources.set (rs : Resources) : Resource → Int → Resources
  | .brick, v => { rs with brick := v }
  | .wood, v => { rs with wood := v }
  | .sheep, v => { rs with sheep := v }
  | .wheat, v => { rs with wheat := v }
  | .ore, v => { rs with ore := v }

/-- board.Node: a settlement/city position. occupant: 0 = empty,
1/2 = player 1/2 settlement, 3/4 = player 1/2 city. -/
structure Node where
  id : Nat
  occupant : Nat
  neighbours : List Nat
  adjacent_roads : List Nat
deriving DecidableEq

/-- board.HexTile: a resource hex (probability field omitted, unused by the
modelled operations). -/
structure HexTile where
  id : Nat
  resource : Resource
  dice_number : Nat
  nodes : List Nat
deriving DecidableEq

/-- board.Road: an edge between two nodes. owner: 0 = unowned, else player id. -/
structure Road where
  id : Nat
  nodes : Nat × Nat
  owner : Nat
deriving DecidableEq

/-- board.Board: nodes, hexes and roads dicts, modelled as lists with lookup
by first matching id. -/
structure Board where
  nodes : List Node
  hexes : List HexTile
  roads : List Road
deriving DecidableEq

/-- Dict access self.nodes[node_id]; none models a KeyError. -/
def Board.findNode (b : Board) (i : Nat) : Option Node :=
  b.nodes.find? (fun n => n.id == i)

/-- Dict access self.roads[road_id]; none models a KeyError. -/
def Board.findRoad (b : Board) (i : Nat) : Option Road :=
  b.roads.find? (fun r => r.id == i)

/-- The generator any(self.roads[rid].owner == player for rid in ids):
short-circuits at the first owned road, raises (none) at the first missing id
encountered before that. -/
def Board.anyRoadOwned (b : Board) (player : Nat) : List Nat → Option Bool
  | [] => some false
  | rid :: rest =>
    match b.findRoad rid with
    | none => none
    | some r => if r.owner == player then some true else b.anyRoadOwned player rest

/-- Board.settlement_is_legal. -/
def Board.settlement_is_legal (b : Board) (node_id player : Nat)
    (start_of_the_game : Bool) : Option Bool :=
  match b.findNode node_id with
  | none => none
  | some node =>
    if start_of_the_game then
      some (node.occupant == 0)
    else if node.occupant != 0 then
      some false
    else
      b.anyRoadOwned player node.adjacent_roads

/-- Board.city_is_legal. -/
def Board.city_is_legal (b : Board) (node_id player : Nat) : Option Bool :=
  match b.findNode node_id with
  | none => none
  | some node => some (node.occupant == player)

/-- Board.road_is_legal. Both endpoint nodes are looked up before the
occupant test, as in the source. -/
def Board.road_is_legal (b : Board) (road_id player : Nat) : Option Bool :=
  match b.findRoad road_id with
  | none => none
  | some road =>
    if road.owner != 0 then some false
    else
      match b.findNode road.nodes.1, b.findNode road.nodes.2 with
      | some na, some nb =>
        if na.occupant == player || nb.occupant == player then some true
        else b.anyRoadOwned player (na.adjacent_roads ++ nb.adjacent_roads)
      | _, _ => none

/-- In-place mutation of the first (unique) node with the given id. -/
def updateFirstNode (f : Node → Node) : List Node → Nat → List Node
  | [], _ => []
  | n :: rest, i => if n.id == i then f n :: rest else n :: updateFirstNode f rest i

/-- In-place mutation of the first (unique) road with the given id. -/
def updateFirstRoad (f : Road → Road) : List Road → Nat → List Road
  | [], _ => []
  | r :: rest, i => if r.id == i then f r :: rest else r :: updateFirstRoad f rest i

/-- Board.set_settlement: node.occupant = player (lookup may raise). -/
def Board.set_settlement (b : Board) (node_id player : Nat) : Option Board :=
  match b.findNode node_id with
  | none => none
  | some _ =>
    some { b with nodes := updateFirstNode (fun n => { n with occupant := player }) b.nodes node_id }

/-- Board.set_city: occupant += 2, only when occupant == player. -/
def Board.set_city (b : Board) (node_id player : Nat) : Option Board :=
  match b.findNode node_id with
  | none => none
  | some node =>
    if node.occupant == player then
      some { b with nodes := updateFirstNode (fun n => { n with occupant := n.occupant + 2 }) b.nodes node_id }
    else
      some b

/-- Board.set_road: road.owner = player, unconditionally. -/
def Board.set_road (b : Board) (road_id player : Nat) : Option Board :=
  match b.findRoad road_id with
  | none => none
  | some _ =>
    some { b with roads := updateFirstRoad (fun r => { r with owner := player }) b.roads road_id }

/-- Inner loop of Board.get_production_for_roll over one hex's node list. -/
def Board.productionAtNodes (b : Board) (res : Resource) : List Nat → Option (List (Nat × Resource))
  | [] => some []
  | nid :: rest =>
    match b.findNode nid, b.productionAtNodes res rest with
    | none, _ => none
    | some _, none => none
    | some node, some tail =>
      if node.occupant == 0 then some tail
      else if node.occupant == 1 || node.occupant == 2 then
        some ((node.occupant, res) :: tail)
      else if node.occupant == 3 || node.occupant == 4 then
        some ((node.occupant - 2, res) :: (node.occupant - 2, res) :: tail)
      else some tail

/-- Outer loop of Board.get_production_for_roll over the hexes. -/
def Board.productionForHexes (b : Board) (dice_roll : Nat) : List HexTile → Option (List (Nat × Resource))
  | [] => some []
  | h :: rest =>
    if h.dice_number != dice_roll then b.productionForHexes dice_roll rest
    else
      match b.productionAtNodes h.resource h.nodes, b.productionForHexes dice_roll rest with
      | some evs, some tail => some (evs ++ tail)
      | _, _ => none

/-- Board.get_production_for_roll. -/
def Board.get_production_for_roll (b : Board) (dice_roll : Nat) : Option (List (Nat × Resource)) :=
  b.productionForHexes dice_roll b.hexes

/-- Internal consistency of the loaded topology: every road's endpoints are
nodes of the board, and every id in a node's adjacent_roads is a road of the
board. load_from_json produces such boards. -/
def Board.wf (b : Board) : Prop :=
  (∀ r ∈ b.roads, (b.findNode r.nodes.1).isSome ∧ (b.findNode r.nodes.2).isSome) ∧
  (∀ n ∈ b.nodes, ∀ i ∈ n.adjacent_roads, (b.findRoad i).isSome)

instance (b : Board) : Decidable b.wf := by
  unfold Board.wf
  infer_instance

/- ### Player (core/player.py) -/

def SETTLEMENT_COST : List (Resource × Int) := [(.brick, 1), (.wood, 1), (.sheep, 1), (.wheat, 1)]

def CITY_COST : List (Resource × Int) := [(.wheat, 2), (.ore, 3)]

def ROAD_COST : List (Resource × Int) := [(.brick, 1), (.wood, 1)]

def MAX_VILLAGES : Int := 5

def MAX_CITIES : Int := 4

def MAX_ROADS : Int := 15

/-- The player.built dict. -/
structure Built where
  settlements : Int
  cities : Int
  roads : Int
deriving DecidableEq

/-- player.Player (the ports set is unused by the modelled operations). -/
structure Player where
  id : Nat
  resources : Resources
  built : Built
deriving DecidableEq

/-- Player.__init__. -/
def Player.init (player_id : Nat) : Player :=
  { id := player_id, resources := ⟨0, 0, 0, 0, 0⟩, built := ⟨0, 0, 0⟩ }

/-- Player.add_resource (default amount in the source is 1; callers pass it
explicitly here). -/
def Player.add_resource (p : Player) (r : Resource) (amount : Int) : Player :=
  { p with resources := p.resources.set r (p.resources.get r + amount) }

/-- Player.has_resources. -/
def Player.has_resources (p : Player) (cost : List (Resource × Int)) : Bool :=
  cost.all (fun c => decide (c.2 ≤ p.resources.get c.1))

/-- Player.deduct_resources. -/
def Player.deduct_resources (p : Player) (cost : List (Resource × Int)) : Player :=
  cost.foldl (fun q c => { q with resources := q.resources.set c.1 (q.resources.get c.1 - c.2) }) p

/-- Player.can_build_settlement. -/
def Player.can_build_settlement (p : Player) (b : Board) (node_id : Nat)
    (free_settlement : Bool) : Option Bool :=
  if MAX_VILLAGES ≤ p.built.settlements then some false
  else
    match b.settlement_is_legal node_id p.id free_settlement with
    | none => none
    | some legal =>
      if !legal then some false
      else some (if free_settlement then true else p.has_resources SETTLEMENT_COST)

/-- Player.can_build_city. -/
def Player.can_build_city (p : Player) (b : Board) (node_id : Nat) : Option Bool :=
  if MAX_CITIES ≤ p.built.cities then some false
  else
    match b.city_is_legal node_id p.id with
    | none => none
    | some legal =>
      if !legal then some false
      else some (p.has_resources CITY_COST)

/-- Player.can_build_road. -/
def Player.can_build_road (p : Player) (b : Board) (road_id : Nat)
    (free_road : Bool) : Option Bool :=
  if MAX_ROADS ≤ p.built.roads then some false
  else
    match b.road_is_legal road_id p.id with
    | none => none
    | some legal =>
      if !legal then some false
      else some (if free_road then true else p.has_resources ROAD_COST)

/-- Player.build_settlement. Returns (success, mutated player, mutated board). -/
def Player.build_settlement (p : Player) (b : Board) (node_id : Nat)
    (free_settlement : Bool) : Option (Bool × Player × Board) :=
  match p.can_build_settlement b node_id free_settlement with
  | none => none
  | some false => some (false, p, b)
  | some true =>
    let p1 := if free_settlement then p else p.deduct_resources SETTLEMENT_COST
    match b.set_settlement node_id p1.id with
    | none => none
    | some b1 =>
      some (true, { p1 with built := { p1.built with settlements := p1.built.settlements + 1 } }, b1)

/-- Player.build_city. -/
def Player.build_city (p : Player) (b : Board) (node_id : Nat) : Option (Bool × Player × Board) :=
  match p.can_build_city b node_id with
  | none => none
  | some false => some (false, p, b)
  | some true =>
    let p1 := p.deduct_resources CITY_COST
    match b.set_city node_id p1.id with
    | none => none
    | some b1 =>
      some (true, { p1 with built := { p1.built with
        cities := p1.built.cities + 1, settlements := p1.built.settlements - 1 } }, b1)

/-- Player.build_road. -/
def Player.build_road (p : Player) (b : Board) (road_id : Nat)
    (free_road : Bool) : Option (Bool × Player × Board) :=
  match p.can_build_road b road_id free_road with
  | none => none
  | some false => some (false, p, b)
  | some true =>
    let p1 := if free_road then p else p.deduct_resources ROAD_COST
    match b.set_road road_id p1.id with
    | none => none
    | some b1 =>
      some (true, { p1 with built := { p1.built with roads := p1.built.roads + 1 } }, b1)

/- ### Game (core/game.py) -/

/-- The initial_buildings_placed dict with keys 0..3; each value is
(village_placed, road_placed). -/
structure PlacementFlags where
  slot0 : Bool × Bool
  slot1 : Bool × Bool
  slot2 : Bool × Bool
  slot3 : Bool × Bool
deriving DecidableEq

/-- Dict access initial_buildings_placed[t]; the source only accesses it under
a t < 4 guard, so keys 0..3 always exist. -/
def PlacementFlags.get (f : PlacementFlags) (t : Nat) : Bool × Bool :=
  if t = 0 then f.slot0 else if t = 1 then f.slot1 else if t = 2 then f.slot2 else f.slot3

/-- initial_buildings_placed[t][0] = v. -/
def PlacementFlags.setFst (f : PlacementFlags) (t : Nat) (v : Bool) : PlacementFlags :=
  if t = 0 then { f with slot0 := (v, f.slot0.2) }
  else if t = 1 then { f with slot1 := (v, f.slot1.2) }
  else if t = 2 then { f with slot2 := (v, f.slot2.2) }
  else { f with slot3 := (v, f.slot3.2) }

/-- initial_buildings_placed[t][1] = v. -/
def PlacementFlags.setSnd (f : PlacementFlags) (t : Nat) (v : Bool) : PlacementFlags :=
  if t = 0 then { f with slot0 := (f.slot0.1, v) }
  else if t = 1 then { f with slot1 := (f.slot1.1, v) }
  else if t = 2 then { f with slot2 := (f.slot2.1, v) }
  else { f with slot3 := (f.slot3.1, v) }

/-- game.Game state. -/
structure Game where
  board : Board
  p1 : Player
  p2 : Player
  current_player_id : Nat
  turn_number : Nat
  last_roll : List (Nat × Nat)
  initial_buildings_placed : PlacementFlags
  longest_road_owner : Nat
  longest_road_length : Nat
  finished : Bool
  winner : Nat
deriving DecidableEq

/-- Game.__init__. -/
def mkGame (board : Board) (p1 p2 : Player) : Game :=
  { board := board, p1 := p1, p2 := p2, current_player_id := 1, turn_number := 0,
    last_roll := [],
    initial_buildings_placed := ⟨(false, false), (false, false), (false, false), (false, false)⟩,
    longest_road_owner := 0, longest_road_length := 5, finished := false, winner := 0 }

/-- A fresh game on a given board with fresh players, as the launcher builds it. -/
def initGame (board : Board) : Game :=
  mkGame board (Player.init 1) (Player.init 2)

/-- Game.get_player. -/
def Game.get_player (g : Game) (player_id : Nat) : Player :=
  if player_id == 1 then g.p1 else g.p2

/-- Writing back the player object mutated in place by the source. -/
def Game.set_player (g : Game) (player_id : Nat) (p : Player) : Game :=
  if player_id == 1 then { g with p1 := p } else { g with p2 := p }

/-- Game.switch_player. -/
def Game.switch_player (g : Game) : Game :=
  { g with current_player_id := if g.current_player_id == 1 then 2 else 1 }

/-- Game.handle_bank_trade: deducts cost of the offered resource and credits 1
of the wanted resource, with no affordability check; always returns True. -/
def handle_bank_trade (p : Player) (offered wanted : Resource) (cost : Int) : Player :=
  let q := { p with resources := p.resources.set offered (p.resources.get offered - cost) }
  { q with resources := q.resources.set wanted (q.resources.get wanted + 1) }

/-- Game.distribute_resources (the dice roll is an input here; the source
draws it from random). -/
def Game.distribute_resources (g : Game) (roll : List (Nat × Nat)) : Option Game :=
  match roll.getLast? with
  | none => none
  | some d =>
    match g.board.get_production_for_roll (d.1 + d.2) with
    | none => none
    | some events =>
      some (events.foldl (fun gg e => gg.set_player e.1 ((gg.get_player e.1).add_resource e.2 1)) g)

/-- Game.turn_start. -/
def Game.turn_start (g : Game) (roll : List (Nat × Nat)) : Option Game :=
  let g1 := { g with turn_number := g.turn_number + 1 }
  if 4 ≤ g1.turn_number then
    match g1.distribute_resources roll with
    | none => none
    | some g2 => some { g2 with last_roll := roll }
  else some g1

/-- The action kinds accepted by advance_one_action; unknown stands for any
other action string. start_turn carries the dice outcome drawn by the source. -/
inductive Action where
  | start_turn (roll : List (Nat × Nat))
  | build_settlement (target_id : Nat)
  | build_city (target_id : Nat)
  | build_road (target_id : Nat)
  | end_turn
  | trade_bank (offered wanted : Resource) (cost : Int)
  | unknown
deriving DecidableEq

/-- action_type in \x7bbuild_road, build_settlement\x7d. -/
def Action.isRoadOrSettlementBuild : Action → Bool
  | .build_settlement _ => true
  | .build_road _ => true
  | _ => false

/-- Game.perform_build_action. -/
def Game.perform_build_action (g : Game) (a : Action) : Option (Game × Bool) :=
  let cp := g.get_player g.current_player_id
  match a with
  | .build_settlement target_id =>
    let free_village :=
      if g.turn_number < 4 then (g.initial_buildings_placed.get g.turn_number).1 == false
      else false
    match cp.build_settlement g.board target_id free_village with
    | none => none
    | some (success, p2, b2) =>
      let g1 := ({ g with board := b2 }).set_player g.current_player_id p2
      let g2 :=
        if g.turn_number < 4 then
          { g1 with initial_buildings_placed := g1.initial_buildings_placed.setFst g.turn_number success }
        else g1
      some (g2, success)
  | .build_city target_id =>
    match cp.build_city g.board target_id with
    | none => none
    | some (success, p2, b2) =>
      some (({ g with board := b2 }).set_player g.current_player_id p2, success)
  | .build_road target_id =>
    let free_road :=
      if g.turn_number < 4 then (g.initial_buildings_placed.get g.turn_number).2 == false
      else false
    match cp.build_road g.board target_id free_road with
    | none => none
    | some (success, p2, b2) =>
      let g1 := ({ g with board := b2 }).set_player g.current_player_id p2
      let g2 :=
        if g.turn_number < 4 then
          { g1 with initial_buildings_placed := g1.initial_buildings_placed.setSnd g.turn_number success }
        else g1
      some (g2, success)
  | _ => some (g, false)

/-- Game.calculate_victory_points. -/
def Game.calculate_victory_points (g : Game) (p : Player) : Int :=
  p.built.settlements + p.built.cities * 2 + (if g.longest_road_owner == p.id then 2 else 0)

/-- Game.check_win_condition. -/
def Game.check_win_condition (g : Game) : Game :=
  let isFinishedP := fun (p : Player) =>
    decide (MAX_VILLAGES ≤ p.built.settlements) &&
    decide (MAX_CITIES ≤ p.built.cities) &&
    decide (MAX_ROADS ≤ p.built.roads)
  if !(isFinishedP g.p1 || isFinishedP g.p2) then g
  else
    let g1 := { g with finished := true }
    let p1_points := g1.calculate_victory_points g1.p1
    let p2_points := g1.calculate_victory_points g1.p2
    if p1_points > p2_points then { g1 with winner := 1 }
    else if p2_points > p1_points then { g1 with winner := 2 }
    else { g1 with winner := 0 }

/- ### Longest road computation (the effective update_longest_road of the
source: the second definition in the class body overrides the first). -/

/-- The blocked occupant set of _player_road_graph: opponent settlement/city. -/
def blockedOccupant (player_id occ : Nat) : Bool :=
  if player_id == 1 then occ == 2 || occ == 4 else occ == 1 || occ == 3

/-- adj.setdefault(k, []).append(v) on an insertion-ordered dict. -/
def adjAppend (k v : Nat) : List (Nat × List Nat) → List (Nat × List Nat)
  | [] => [(k, [v])]
  | kv :: rest => if kv.1 == k then (kv.1, kv.2 ++ [v]) :: rest else kv :: adjAppend k v rest

/-- graph.get(n, []). -/
def adjGet (adj : List (Nat × List Nat)) (n : Nat) : List Nat :=
  match adj.find? (fun kv => kv.1 == n) with
  | none => []
  | some kv => kv.2

/-- The road loop of Game._player_road_graph. -/
def roadGraphGo (b : Board) (player_id : Nat) : List Road → List (Nat × List Nat) → Option (List (Nat × List Nat))
  | [], adj => some adj
  | road :: rest, adj =>
    if road.owner != player_id then roadGraphGo b player_id rest adj
    else
      match b.findNode road.nodes.1, b.findNode road.nodes.2 with
      | some na, some nb =>
        let aBlocked := blockedOccupant player_id na.occupant
        let bBlocked := blockedOccupant player_id nb.occupant
        if aBlocked && bBlocked then roadGraphGo b player_id rest adj
        else
          let adj1 := if !aBlocked then adjAppend road.nodes.1 road.nodes.2 adj else adj
          let adj2 := if !bBlocked then adjAppend road.nodes.2 road.nodes.1 adj1 else adj1
          roadGraphGo b player_id rest adj2
      | _, _ => none

/-- Game._player_road_graph. -/
def Game.playerRoadGraph (g : Game) (player_id : Nat) : Option (List (Nat × List Nat)) :=
  roadGraphGo g.board player_id g.board.roads []

/-- Game._dfs_longest_path. The recursion of the source terminates because
every call adds a fresh canonical edge pair to the visited set; fuel bounds
the recursion depth and is instantiated with more fuel than there are edges,
so it is never exhausted. -/
def dfsLongestPath (graph : List (Nat × List Nat)) : Nat → Nat → List (Nat × Nat) → Nat
  | 0, _, _ => 0
  | fuel + 1, current, visited_edges =>
    (adjGet graph current).foldl
      (fun best nxt =>
        let edge := (Nat.min current nxt, Nat.max current nxt)
        if visited_edges.contains edge then best
        else
          let length := 1 + dfsLongestPath graph fuel nxt (edge :: visited_edges)
          if length > best then length else best)
      0

/-- Game._compute_longest_road_for_player. -/
def Game.computeLongestRoadForPlayer (g : Game) (player_id : Nat) : Option Nat :=
  match g.playerRoadGraph player_id with
  | none => none
  | some [] => some 0
  | some adj =>
    some (adj.foldl
      (fun longest kv =>
        let length := dfsLongestPath adj (g.board.roads.length + 1) kv.1 []
        if length > longest then length else longest)
      0)

/-- Game.update_longest_road (the effective, second definition). -/
def Game.update_longest_road (g : Game) : Option Game :=
  match g.computeLongestRoadForPlayer 1, g.computeLongestRoadForPlayer 2 with
  | some p1_len, some p2_len =>
    if Nat.max p1_len p2_len < g.longest_road_length then some { g with longest_road_owner := 0 }
    else if p1_len == p2_len then some { g with longest_road_owner := 0 }
    else if p1_len > p2_len then some { g with longest_road_owner := 1 }
    else some { g with longest_road_owner := 2 }
  | _, _ => none

/-- Game.advance_one_action. A result of none models a raised exception. -/
def Game.advance_one_action (g : Game) (a : Action) : Option (Game × Bool) :=
  if g.finished then some (g, false)
  else
    match a with
    | .start_turn roll =>
      match g.turn_start roll with
      | none => none
      | some g1 => some (g1, true)
    | .build_settlement _ | .build_city _ | .build_road _ =>
      match g.perform_build_action a with
      | none => none
      | some (g1, success) =>
        match (if success && a.isRoadOrSettlementBuild then g1.update_longest_road else some g1) with
        | none => none
        | some g2 => some (if success then (g2.check_win_condition, success) else (g2, success))
    | .end_turn =>
      if g.turn_number != 1 then some (g.switch_player, true) else some (g, true)
    | .trade_bank offered wanted cost =>
      let cp := g.get_player g.current_player_id
      some (g.set_player g.current_player_id (handle_bank_trade cp offered wanted cost), true)
    | .unknown => some (g, false)

/-- A caller issuing a sequence of actions through the single entry point,
keeping the state whatever the success flag was; none models a raised
exception somewhere along the way. -/
def runActions (g : Game) : List Action → Option Game
  | [] => some g
  | a :: rest =>
    match g.advance_one_action a with
    | none => none
    | some gr => runActions gr.1 rest

/- ### Derived counting and summing helpers used by the claims -/

/-- Sum of a player's five resource counts. -/
def sumResources (rs : Resources) : Int :=
  rs.brick + rs.wood + rs.sheep + rs.wheat + rs.ore

/-- Every resource count of a player is non-negative. -/
def nonnegResources (p : Player) : Prop :=
  ∀ r : Resource, 0 ≤ p.resources.get r

/-- Number of board positions holding player k's settlement marker
(len(get_owned_settlements)). -/
def countSettlements (b : Board) (k : Nat) : Nat :=
  b.nodes.countP (fun n => n.occupant == k)

/-- Number of board positions holding player k's city marker
(len(get_owned_cities)). -/
def countCities (b : Board) (k : Nat) : Nat :=
  b.nodes.countP (fun n => n.occupant == k + 2)

/-- Number of board positions whose occupant is player k's settlement or city
marker. -/
def countOwnedPositions (b : Board) (k : Nat) : Nat :=
  b.nodes.countP (fun n => n.occupant == k || n.occupant == k + 2)

/-- The structure counters agree with the board: players carry their
constructed ids 1 and 2 and each player's built settlement/city counters
equal the number of board positions carrying the corresponding marker. -/
def builtMatches (g : Game) : Prop :=
  g.p1.id = 1 ∧ g.p2.id = 2 ∧
  g.p1.built.settlements = (countSettlements g.board 1 : Int) ∧
  g.p1.built.cities = (countCities g.board 1 : Int) ∧
  g.p2.built.settlements = (countSettlements g.board 2 : Int) ∧
  g.p2.built.cities = (countCities g.board 2 : Int)

/-- Modelled from claim C5's wording: legal iff the edge is unowned AND
(either endpoint is occupied by the player's settlement OR CITY, or an
adjacent edge is owned by the player). Stated for comparison with
Board.road_is_legal, which tests only occupant == player (settlement marker). -/
def road_legal_claim (b : Board) (road_id player : Nat) : Option Bool :=
  match b.findRoad road_id with
  | none => none
  | some road =>
    if road.owner != 0 then some false
    else
      match b.findNode road.nodes.1, b.findNode road.nodes.2 with
      | some na, some nb =>
        if na.occupant == player || na.occupant == player + 2 ||
            nb.occupant == player || nb.occupant == player + 2 then some true
        else b.anyRoadOwned player (na.adjacent_roads ++ nb.adjacent_roads)
      | _, _ => none

/- ### Concrete fixtures -/

/-- A board with no nodes, hexes or roads. -/
def emptyBoard : Board := ⟨[], [], []⟩

/-- A board with one empty node and nothing else. -/
def boardOneNode : Board := ⟨[⟨0, 0, [], []⟩], [], []⟩

/-- Two empty, unconnected nodes; no roads. -/
def boardTwoFreeNodes : Board := ⟨[⟨0, 0, [], []⟩, ⟨1, 0, [], []⟩], [], []⟩

/-- One unowned road whose endpoint 0 carries player 1's CITY (occupant 3). -/
def boardCityEndpoint : Board :=
  ⟨[⟨0, 3, [1], [0]⟩, ⟨1, 0, [0], [0]⟩], [], [⟨0, (0, 1), 0⟩]⟩

/-- One road already owned by player 1. -/
def boardOwnedRoad : Board :=
  ⟨[⟨0, 0, [1], [0]⟩, ⟨1, 0, [0], [0]⟩], [], [⟨0, (0, 1), 1⟩]⟩

/-- One unowned road between two empty nodes. -/
def boardUnownedRoad : Board :=
  ⟨[⟨0, 0, [1], [0]⟩, ⟨1, 0, [0], [0]⟩], [], [⟨0, (0, 1), 0⟩]⟩

/-- One unowned road whose endpoint 0 carries player 1's settlement. -/
def boardSettleEndpoint : Board :=
  ⟨[⟨0, 1, [1], [0]⟩, ⟨1, 0, [0], [0]⟩], [], [⟨0, (0, 1), 0⟩]⟩

/-- Node 0 empty with an adjacent road owned by player 1; the neighbouring
node 1 holds player 2's settlement. -/
def boardAdjacentSettlement : Board :=
  ⟨[⟨0, 0, [1], [0]⟩, ⟨1, 2, [0], [0]⟩], [], [⟨0, (0, 1), 1⟩]⟩

/-- A 6-edge path 0-1-2-3-4-5-6 of player 1 roads with player 2's settlement
on node 2: surviving open-ended segments have 2 and 4 edges. -/
def boardPathBlocked : Board :=
  ⟨[⟨0, 0, [1], [0]⟩, ⟨1, 0, [0, 2], [0, 1]⟩, ⟨2, 2, [1, 3], [1, 2]⟩,
    ⟨3, 0, [2, 4], [2, 3]⟩, ⟨4, 0, [3, 5], [3, 4]⟩, ⟨5, 0, [4, 6], [4, 5]⟩,
    ⟨6, 0, [5], [5]⟩], [],
   [⟨0, (0, 1), 1⟩, ⟨1, (1, 2), 1⟩, ⟨2, (2, 3), 1⟩, ⟨3, (3, 4), 1⟩,
    ⟨4, (4, 5), 1⟩, ⟨5, (5, 6), 1⟩]⟩

/-- The same 6-edge path with node 2 unoccupied. -/
def boardPathOpen : Board :=
  ⟨[⟨0, 0, [1], [0]⟩, ⟨1, 0, [0, 2], [0, 1]⟩, ⟨2, 0, [1, 3], [1, 2]⟩,
    ⟨3, 0, [2, 4], [2, 3]⟩, ⟨4, 0, [3, 5], [3, 4]⟩, ⟨5, 0, [4, 6], [4, 5]⟩,
    ⟨6, 0, [5], [5]⟩], [],
   [⟨0, (0, 1), 1⟩, ⟨1, (1, 2), 1⟩, ⟨2, (2, 3), 1⟩, ⟨3, (3, 4), 1⟩,
    ⟨4, (4, 5), 1⟩, ⟨5, (5, 6), 1⟩]⟩

/- ### Theorems -/

/-- Claim C1 counterexample: from the initial game, the single action
trade_bank (brick offered, wood wanted, cost 2) succeeds and leaves player 1
with brick = -2 and resource sum -1: the deduction is applied with no
affordability check and the sum of resource counts goes negative. -/
theorem trade_bank_negative_sum :
    ((initGame emptyBoard).advance_one_action (.trade_bank .brick .wood 2)).map
        (fun gr => (gr.2, gr.1.p1.resources.brick, sumResources gr.1.p1.resources)) =
      some (true, -2, -1) := by
  decide

/-- Claim C4 (code bug): in placement slot 0 (turn_number 0), player 1 places
a free settlement at node 0, then attempts node 1 without the free flag and
fails (no connecting road, no resources) — which overwrites the slot's
village flag with False — and then succeeds at node 1 free of charge again:
two settlements built in one slot with the resource sum still 0, and the
middle attempt indeed returned failure. -/
theorem placement_slot_double_free_settlement :
    ((runActions (initGame boardTwoFreeNodes)
        [.build_settlement 0, .build_settlement 1, .build_settlement 1]).map
      (fun g => (g.turn_number, g.p1.built.settlements, sumResources g.p1.resources)) =
        some (0, 2, 0)) ∧
    (((runActions (initGame boardTwoFreeNodes) [.build_settlement 0]).bind
        (fun g => g.advance_one_action (.build_settlement 1))).map Prod.snd = some false) := by
  constructor
  · decide
  · decide

/-- Claim C3 counterexample: Board.set_road overwrites an owner
unconditionally — on a road already owned by player 1 it sets owner 2, so the
mutator itself does NOT check that the edge is unowned. -/
theorem set_road_overwrites_owner :
    (boardOwnedRoad.findRoad 0).map Road.owner = some 1 ∧
    (boardOwnedRoad.set_road 0 2).map (fun b => (b.findRoad 0).map Road.owner) =
      some (some 2) := by
  constructor
  · decide
  · decide

/-- Claim C5 counterexample: on an unowned road whose endpoint holds player
1's CITY (occupant 3) and with no roads owned by player 1, the claim's
predicate (settlement or city at an endpoint) is true but
Board.road_is_legal returns false: the code compares occupant == player,
which matches only the settlement marker. -/
theorem road_legal_city_endpoint_mismatch :
    road_legal_claim boardCityEndpoint 0 1 = some true ∧
    boardCityEndpoint.road_is_legal 0 1 = some false ∧
    (boardCityEndpoint.findNode 0).map Node.occupant = some 3 := by
  refine ⟨by decide, by decide, by decide⟩

/-- Claim C7: on the 6-edge path of player 1 roads broken at node 2 by player
2's settlement, the longest-road computation returns 4 — the longer of the
two surviving open-ended segments (2 and 4 edges), neither 0 nor 6 — while
the identical unblocked path yields 6. -/
theorem blocked_path_yields_longer_segment :
    (initGame boardPathBlocked).computeLongestRoadForPlayer 1 = some 4 ∧
    (initGame boardPathOpen).computeLongestRoadForPlayer 1 = some 6 := by
  constructor
  · decide
  · decide

/-- Claim C8 counterexample: player 1 places a free settlement at node 0,
acquires 2 wheat and 3 ore through zero-cost bank trades, and upgrades to a
city. Then built.settlements + 2*built.cities = 2 exceeds the single owned
position, so the claimed ≤ inequality is false in a reachable state. -/
theorem city_breaks_weighted_count_invariant :
    (runActions (initGame boardOneNode)
        [.build_settlement 0,
         .trade_bank .brick .wheat 0, .trade_bank .brick .wheat 0,
         .trade_bank .brick .ore 0, .trade_bank .brick .ore 0, .trade_bank .brick .ore 0,
         .build_city 0]).map
      (fun g => (g.p1.built.settlements, g.p1.built.cities, countOwnedPositions g.board 1,
        decide (g.p1.built.settlements + 2 * g.p1.built.cities ≤ (countOwnedPositions g.board 1 : Int)))) =
      some (0, 1, 1, false) := by
  decide

/-- Claim C9 counterexample: a build_settlement on a node id that is not on
the board raises a KeyError (modelled as none) instead of returning False. -/
theorem missing_target_raises_keyerror :
    (initGame boardOneNode).advance_one_action (.build_settlement 999) = none := by
  decide

/- ### Helper lemmas on the legality predicates -/

theorem anyRoadOwned_isSome (b : Board) (k : Nat) (l : List Nat)
    (h : ∀ i ∈ l, (b.findRoad i).isSome) : (b.anyRoadOwned k l).isSome := by
  induction l with
  | nil => simp [Board.anyRoadOwned]
  | cons x xs ih =>
    have hx := h x (List.mem_cons_self x xs)
    rcases hfx : b.findRoad x with _ | r
    · rw [hfx] at hx; simp at hx
    · simp only [Board.anyRoadOwned, hfx]
      by_cases ho : (r.owner == k) = true
      · simp [ho]
      · simp only [ho, if_false, Bool.false_eq_true]
        exact ih (fun i hi => h i (List.mem_cons_of_mem x hi))

theorem anyRoadOwned_eq_true_iff (b : Board) (k : Nat) (l : List Nat)
    (h : ∀ i ∈ l, (b.findRoad i).isSome) :
    (b.anyRoadOwned k l = some true ↔
      ∃ i ∈ l, ∃ r, b.findRoad i = some r ∧ r.owner = k) := by
  induction l with
  | nil => simp [Board.anyRoadOwned]
  | cons x xs ih =>
    have hx := h x (List.mem_cons_self x xs)
    rcases hfx : b.findRoad x with _ | r
    · rw [hfx] at hx; simp at hx
    · have ihx := ih (fun i hi => h i (List.mem_cons_of_mem x hi))
      simp only [Board.anyRoadOwned, hfx]
      by_cases ho : (r.owner == k) = true
      · simp only [if_pos ho]
        constructor
        · intro _
          exact ⟨x, List.mem_cons_self x xs, r, hfx, by exact beq_iff_eq.mp ho⟩
        · intro _; trivial
      · simp only [ho, if_false, Bool.false_eq_true]
        rw [ihx]
        constructor
        · rintro ⟨i, hi, s, hs, hsk⟩
          exact ⟨i, List.mem_cons_of_mem x hi, s, hs, hsk⟩
        · rintro ⟨i, hi, s, hs, hsk⟩
          rcases List.mem_cons.mp hi with rfl | hi'
          · rw [hfx] at hs
            injection hs with hrs
            subst hrs
            exact absurd (beq_iff_eq.mpr hsk) ho
          · exact ⟨i, hi', s, hs, hsk⟩

theorem settlement_is_legal_isSome (b : Board) (hwf : b.wf) (nid k : Nat) (st : Bool)
    (h : (b.findNode nid).isSome) : (b.settlement_is_legal nid k st).isSome := by
  rcases hn : b.findNode nid with _ | node
  · rw [hn] at h; simp at h
  · have hmem : node ∈ b.nodes := List.mem_of_find?_eq_some hn
    simp only [Board.settlement_is_legal, hn]
    by_cases hst : st = true
    · simp [hst]
    · simp only [Bool.not_eq_true] at hst
      subst hst
      simp only [Bool.false_eq_true, if_false]
      by_cases hocc : (node.occupant != 0) = true
      · simp [hocc]
      · simp only [hocc, if_false, Bool.false_eq_true]
        exact anyRoadOwned_isSome b k _ (fun i hi => hwf.2 node hmem i hi)

theorem road_is_legal_isSome (b : Board) (hwf : b.wf) (rid k : Nat)
    (h : (b.findRoad rid).isSome) : (b.road_is_legal rid k).isSome := by
  rcases hr : b.findRoad rid with _ | road
  · rw [hr] at h; simp at h
  · have hmem : road ∈ b.roads := List.mem_of_find?_eq_some hr
    have hends := hwf.1 road hmem
    rcases ha : b.findNode road.nodes.1 with _ | na
    · rw [ha] at hends; simp at hends
    rcases hb2 : b.findNode road.nodes.2 with _ | nb
    · rw [hb2] at hends; simp at hends
    have hma : na ∈ b.nodes := List.mem_of_find?_eq_some ha
    have hmb : nb ∈ b.nodes := List.mem_of_find?_eq_some hb2
    simp only [Board.road_is_legal, hr, ha, hb2]
    by_cases how : (road.owner != 0) = true
    · simp [how]
    · simp only [how, if_false, Bool.false_eq_true]
      by_cases hocc : (na.occupant == k || nb.occupant == k) = true
      · simp [hocc]
      · simp only [hocc, if_false, Bool.false_eq_true]
        apply anyRoadOwned_isSome
        intro i hi
        rcases List.mem_append.mp hi with hi' | hi'
        · exact hwf.2 na hma i hi'
        · exact hwf.2 nb hmb i hi'

/-- Claim C10: the settlement legality predicate consults only the node's own
occupancy and its adjacent roads — for any empty node with at least one
adjacent road owned by player k, it returns true, whatever the occupants of
the neighbouring nodes are (so settlements may be placed directly next to
any settlement or city; there is no distance rule). -/
theorem settlement_legal_no_distance_rule (b : Board) (k nid : Nat) (node : Node)
    (hn : b.findNode nid = some node) (hocc : node.occupant = 0)
    (hres : ∀ i ∈ node.adjacent_roads, (b.findRoad i).isSome)
    (hown : ∃ i ∈ node.adjacent_roads, ∃ r, b.findRoad i = some r ∧ r.owner = k) :
    b.settlement_is_legal nid k false = some true := by
  simp only [Board.settlement_is_legal, hn, Bool.false_eq_true, if_false]
  have hocc' : (node.occupant != 0) = false := by simp [hocc]
  simp only [hocc', Bool.false_eq_true, if_false]
  exact (anyRoadOwned_eq_true_iff b k node.adjacent_roads hres).mpr hown

/-- Witness for claim C10: on boardAdjacentSettlement, node 0 is empty, its
adjacent road is owned by player 1, and the neighbouring node 1 holds player
2's settlement; placing there is legal. -/
theorem settlement_legal_no_distance_rule_witness :
    boardAdjacentSettlement.settlement_is_legal 0 1 false = some true :=
  settlement_legal_no_distance_rule boardAdjacentSettlement 1 0 ⟨0, 0, [1], [0]⟩
    (by decide) (by decide) (by decide)
    ⟨0, by decide, ⟨0, (0, 1), 1⟩, by decide, by decide⟩

/-- Claim C5 (amended): road_is_legal returns true iff the edge is unowned
AND (either endpoint holds the player's SETTLEMENT marker — occupant equal to
the player id, so a city does not qualify — or some edge in either
endpoint's adjacent-road list is owned by the player). -/
theorem road_is_legal_characterization (b : Board) (rid k : Nat) (road : Road) (na nb : Node)
    (hr : b.findRoad rid = some road)
    (ha : b.findNode road.nodes.1 = some na) (hb2 : b.findNode road.nodes.2 = some nb)
    (hadj : ∀ i ∈ na.adjacent_roads ++ nb.adjacent_roads, (b.findRoad i).isSome) :
    (b.road_is_legal rid k = some true ↔
      road.owner = 0 ∧ (na.occupant = k ∨ nb.occupant = k ∨
        ∃ i ∈ na.adjacent_roads ++ nb.adjacent_roads,
          ∃ s, b.findRoad i = some s ∧ s.owner = k)) := by
  simp only [Board.road_is_legal, hr, ha, hb2]
  by_cases how : road.owner = 0
  · have how' : (road.owner != 0) = false := by simp [how]
    simp only [how', Bool.false_eq_true, if_false]
    by_cases hocc : (na.occupant == k || nb.occupant == k) = true
    · simp only [if_pos hocc]
      rw [Bool.or_eq_true, beq_iff_eq, beq_iff_eq] at hocc
      constructor
      · intro _
        exact ⟨how, by tauto⟩
      · intro _; trivial
    · simp only [hocc, if_false, Bool.false_eq_true]
      rw [anyRoadOwned_eq_true_iff b k _ hadj]
      rw [Bool.or_eq_true, beq_iff_eq, beq_iff_eq] at hocc
      push_neg at hocc
      constructor
      · intro hex
        exact ⟨how, Or.inr (Or.inr hex)⟩
      · rintro ⟨_, h | h | h⟩
        · exact absurd h hocc.1
        · exact absurd h hocc.2
        · exact h
  · have how' : (road.owner != 0) = true := by simp [how]
    simp only [how', if_true]
    constructor
    · intro hcontra
      exact absurd (Option.some.inj hcontra) (by simp)
    · rintro ⟨h0, _⟩
      exact absurd h0 how

/-- Witness for claim C5's amended characterization: applied to
boardSettleEndpoint (unowned road, player 1 settlement on endpoint 0), both
sides of the equivalence hold. -/
theorem road_is_legal_characterization_witness :
    boardSettleEndpoint.road_is_legal 0 1 = some true ↔
      (⟨0, (0, 1), 0⟩ : Road).owner = 0 ∧
      ((⟨0, 1, [1], [0]⟩ : Node).occupant = 1 ∨ (⟨1, 0, [0], [0]⟩ : Node).occupant = 1 ∨
        ∃ i ∈ (⟨0, 1, [1], [0]⟩ : Node).adjacent_roads ++ (⟨1, 0, [0], [0]⟩ : Node).adjacent_roads,
          ∃ s, boardSettleEndpoint.findRoad i = some s ∧ s.owner = 1) :=
  road_is_legal_characterization boardSettleEndpoint 0 1 ⟨0, (0, 1), 0⟩
    ⟨0, 1, [1], [0]⟩ ⟨1, 0, [0], [0]⟩ rfl rfl rfl (by decide)

/-- Claim C2: each failing build operation is atomic — when build_settlement,
build_city or build_road reports failure, the player (resources and structure
counters) and the board (occupancy and edge ownership) are returned exactly
unchanged; and build_road called with insufficient resources and the free
flag off fails with both untouched (given the target edge exists on a
well-formed board, so the call does not raise). -/
theorem build_failure_is_atomic (p : Player) (b : Board) (tid : Nat) (free : Bool) :
    (∀ q c, p.build_settlement b tid free = some (false, q, c) → q = p ∧ c = b) ∧
    (∀ q c, p.build_city b tid = some (false, q, c) → q = p ∧ c = b) ∧
    (∀ q c, p.build_road b tid free = some (false, q, c) → q = p ∧ c = b) ∧
    (free = false → p.has_resources ROAD_COST = false → b.wf → (b.findRoad tid).isSome →
      p.build_road b tid free = some (false, p, b)) := by
  refine ⟨?_, ?_, ?_, ?_⟩
  · intro q c h
    rcases hcan : p.can_build_settlement b tid free with _ | lv
    · simp only [Player.build_settlement, hcan] at h
      exact Option.noConfusion h
    · cases lv
      · simp only [Player.build_settlement, hcan, Option.some.injEq, Prod.mk.injEq,
          true_and] at h
        exact ⟨h.1.symm, h.2.symm⟩
      · simp only [Player.build_settlement, hcan] at h
        rcases hset : b.set_settlement tid
            (if free then p else p.deduct_resources SETTLEMENT_COST).id with _ | b1
        · rw [hset] at h; simp at h
        · rw [hset] at h; simp at h
  · intro q c h
    rcases hcan : p.can_build_city b tid with _ | lv
    · simp only [Player.build_city, hcan] at h
      exact Option.noConfusion h
    · cases lv
      · simp only [Player.build_city, hcan, Option.some.injEq, Prod.mk.injEq,
          true_and] at h
        exact ⟨h.1.symm, h.2.symm⟩
      · simp only [Player.build_city, hcan] at h
        rcases hset : b.set_city tid (p.deduct_resources CITY_COST).id with _ | b1
        · rw [hset] at h; simp at h
        · rw [hset] at h; simp at h
  · intro q c h
    rcases hcan : p.can_build_road b tid free with _ | lv
    · simp only [Player.build_road, hcan] at h
      exact Option.noConfusion h
    · cases lv
      · simp only [Player.build_road, hcan, Option.some.injEq, Prod.mk.injEq,
          true_and] at h
        exact ⟨h.1.symm, h.2.symm⟩
      · simp only [Player.build_road, hcan] at h
        rcases hset : b.set_road tid
            (if free then p else p.deduct_resources ROAD_COST).id with _ | b1
        · rw [hset] at h; simp at h
        · rw [hset] at h; simp at h
  · intro hfree hres hwf hsome
    have hcan : p.can_build_road b tid free = some false := by
      rw [Player.can_build_road]
      by_cases hcap : MAX_ROADS ≤ p.built.roads
      · rw [if_pos hcap]
      · rw [if_neg hcap]
        rcases hleg : b.road_is_legal tid p.id with _ | lv
        · have := road_is_legal_isSome b hwf tid p.id hsome
          rw [hleg] at this; simp at this
        · cases lv
          · simp
          · simp [hfree, hres]
    simp [Player.build_road, hcan]

/-- Witness for claim C2: the fresh player 1 (zero resources) fails to build
road 0 on boardUnownedRoad and both the player and the board come back
unchanged. -/
theorem build_failure_is_atomic_witness :
    (Player.init 1).build_road boardUnownedRoad 0 false =
      some (false, Player.init 1, boardUnownedRoad) :=
  (build_failure_is_atomic (Player.init 1) boardUnownedRoad 0 false).2.2.2
    rfl (by decide) (by decide) (by decide)

/-- Claim C6: whenever the longest-road lengths of the players compute to l1
and l2 and the threshold field still holds its initial value 5 (the effective
update_longest_road never writes it), the recomputation sets the owner to the
player whose length is ≥ 5 and strictly greater than the other's, and clears
it to 0 on a tie or when neither reaches 5; a length of 4 never yields the
title, and a length of exactly 5 beats any shorter opposing length. -/
theorem update_longest_road_owner_rule (g : Game) (l1 l2 : Nat)
    (h5 : g.longest_road_length = 5)
    (h1 : g.computeLongestRoadForPlayer 1 = some l1)
    (h2 : g.computeLongestRoadForPlayer 2 = some l2) :
    (g.update_longest_road.map Game.longest_road_owner =
      some (if 5 ≤ l1 ∧ l2 < l1 then 1 else if 5 ≤ l2 ∧ l1 < l2 then 2 else 0)) ∧
    (l1 = 4 → g.update_longest_road.map Game.longest_road_owner ≠ some 1) ∧
    (l1 = 5 → l2 < 5 → g.update_longest_road.map Game.longest_road_owner = some 1) := by
  have hmain : g.update_longest_road.map Game.longest_road_owner =
      some (if 5 ≤ l1 ∧ l2 < l1 then 1 else if 5 ≤ l2 ∧ l1 < l2 then 2 else 0) := by
    unfold Game.update_longest_road
    rw [h1, h2, h5]
    dsimp only
    by_cases hA : Nat.max l1 l2 < 5
    · rw [if_pos hA]
      rw [Nat.max_lt] at hA
      simp only [Option.map_some', Option.some.injEq]
      split_ifs <;> omega
    · rw [if_neg hA]
      have hA' : 5 ≤ l1 ∨ 5 ≤ l2 := by
        rcases Nat.lt_or_ge l1 5 with h | h
        · rcases Nat.lt_or_ge l2 5 with h' | h'
          · exact absurd (Nat.max_lt.mpr ⟨h, h'⟩) hA
          · exact Or.inr h'
        · exact Or.inl h
      by_cases hB : (l1 == l2) = true
      · rw [if_pos hB]
        rw [beq_iff_eq] at hB
        simp only [Option.map_some', Option.some.injEq]
        split_ifs <;> omega
      · rw [if_neg hB]
        have hB' : l1 ≠ l2 := fun he => hB (beq_iff_eq.mpr he)
        by_cases hC : l1 > l2
        · rw [if_pos hC]
          have hl1 : 5 ≤ l1 := by rcases hA' with h | h <;> omega
          simp only [Option.map_some', Option.some.injEq]
          split_ifs <;> omega
        · rw [if_neg hC]
          have hl2 : 5 ≤ l2 := by rcases hA' with h | h <;> omega
          simp only [Option.map_some', Option.some.injEq]
          split_ifs <;> omega
  refine ⟨hmain, ?_, ?_⟩
  · intro h4
    rw [hmain]
    split_ifs with hA hB
    · exact absurd hA.1 (by omega)
    · simp
    · simp
  · intro h5' hlt
    rw [hmain]
    split_ifs with hA hB
    · rfl
    · exact absurd hB.2 (by omega)
    · exact absurd (And.intro (by omega) (by omega)) hA

/-- Witness for claim C6 at the fresh game on the empty board, where both
computed lengths are 0 and the owner is cleared to 0. -/
theorem update_longest_road_owner_rule_witness :
    ((initGame emptyBoard).update_longest_road.map Game.longest_road_owner =
      some (if 5 ≤ (0 : Nat) ∧ (0 : Nat) < 0 then 1
        else if 5 ≤ (0 : Nat) ∧ (0 : Nat) < 0 then 2 else 0)) ∧
    ((0 : Nat) = 4 →
      (initGame emptyBoard).update_longest_road.map Game.longest_road_owner ≠ some 1) ∧
    ((0 : Nat) = 5 → (0 : Nat) < 5 →
      (initGame emptyBoard).update_longest_road.map Game.longest_road_owner = some 1) :=
  update_longest_road_owner_rule (initGame emptyBoard) 0 0 rfl (by decide) (by decide)

/- ### Lemmas about the in-place dict updates -/

theorem find?_cons_pos {α : Type} (p : α → Bool) (a : α) (l : List α) (h : p a = true) :
    (a :: l).find? p = some a := by
  simp [List.find?_cons, h]

theorem find?_cons_neg {α : Type} (p : α → Bool) (a : α) (l : List α) (h : ¬ p a = true) :
    (a :: l).find? p = l.find? p := by
  have hf : p a = false := by
    cases hpa : p a
    · rfl
    · exact absurd hpa h
  simp [List.find?_cons, hf]

theorem find?_updateFirstNode (f : Node → Node) (hf : ∀ n, (f n).id = n.id)
    (l : List Node) (i j : Nat) :
    (updateFirstNode f l i).find? (fun n => n.id == j) =
      if i = j then (l.find? (fun n => n.id == j)).map f
      else l.find? (fun n => n.id == j) := by
  induction l with
  | nil =>
    simp [updateFirstNode]
  | cons n rest ih =>
    rw [updateFirstNode]
    by_cases hni : (n.id == i) = true
    · rw [if_pos hni]
      have hni' : n.id = i := beq_iff_eq.mp hni
      by_cases hij : i = j
      · subst hij
        have h1 : ((f n).id == i) = true := by rw [hf n]; exact hni
        rw [find?_cons_pos (fun m => m.id == i) (f n) rest h1, if_pos rfl,
          find?_cons_pos (fun m => m.id == i) n rest hni]
        rfl
      · have h1 : ¬ ((f n).id == j) = true := by
          rw [hf n]
          intro hc
          exact hij (hni'.symm.trans (beq_iff_eq.mp hc))
        have h2 : ¬ (n.id == j) = true := by
          intro hc
          exact hij (hni'.symm.trans (beq_iff_eq.mp hc))
        rw [find?_cons_neg (fun m => m.id == j) (f n) rest h1, if_neg hij,
          find?_cons_neg (fun m => m.id == j) n rest h2]
    · rw [if_neg hni]
      by_cases hnj : (n.id == j) = true
      · have hij : ¬ i = j := by
          intro hc
          subst hc
          exact hni hnj
        rw [find?_cons_pos (fun m => m.id == j) n (updateFirstNode f rest i) hnj, if_neg hij,
          find?_cons_pos (fun m => m.id == j) n rest hnj]
      · rw [find?_cons_neg (fun m => m.id == j) n (updateFirstNode f rest i) hnj, ih]
        by_cases hij : i = j
        · rw [if_pos hij, if_pos hij, find?_cons_neg (fun m => m.id == j) n rest hnj]
        · rw [if_neg hij, if_neg hij, find?_cons_neg (fun m => m.id == j) n rest hnj]

theorem find?_updateFirstRoad (f : Road → Road) (hf : ∀ r, (f r).id = r.id)
    (l : List Road) (i j : Nat) :
    (updateFirstRoad f l i).find? (fun r => r.id == j) =
      if i = j then (l.find? (fun r => r.id == j)).map f
      else l.find? (fun r => r.id == j) := by
  induction l with
  | nil =>
    simp [updateFirstRoad]
  | cons n rest ih =>
    rw [updateFirstRoad]
    by_cases hni : (n.id == i) = true
    · rw [if_pos hni]
      have hni' : n.id = i := beq_iff_eq.mp hni
      by_cases hij : i = j
      · subst hij
        have h1 : ((f n).id == i) = true := by rw [hf n]; exact hni
        rw [find?_cons_pos (fun m => m.id == i) (f n) rest h1, if_pos rfl,
          find?_cons_pos (fun m => m.id == i) n rest hni]
        rfl
      · have h1 : ¬ ((f n).id == j) = true := by
          rw [hf n]
          intro hc
          exact hij (hni'.symm.trans (beq_iff_eq.mp hc))
        have h2 : ¬ (n.id == j) = true := by
          intro hc
          exact hij (hni'.symm.trans (beq_iff_eq.mp hc))
        rw [find?_cons_neg (fun m => m.id == j) (f n) rest h1, if_neg hij,
          find?_cons_neg (fun m => m.id == j) n rest h2]
    · rw [if_neg hni]
      by_cases hnj : (n.id == j) = true
      · have hij : ¬ i = j := by
          intro hc
          subst hc
          exact hni hnj
        rw [find?_cons_pos (fun m => m.id == j) n (updateFirstRoad f rest i) hnj, if_neg hij,
          find?_cons_pos (fun m => m.id == j) n rest hnj]
      · rw [find?_cons_neg (fun m => m.id == j) n (updateFirstRoad f rest i) hnj, ih]
        by_cases hij : i = j
        · rw [if_pos hij, if_pos hij, find?_cons_neg (fun m => m.id == j) n rest hnj]
        · rw [if_neg hij, if_neg hij, find?_cons_neg (fun m => m.id == j) n rest hnj]

theorem mem_updateFirstNode (f : Node → Node) (l : List Node) (i : Nat) (m : Node)
    (hm : m ∈ updateFirstNode f l i) : m ∈ l ∨ ∃ n ∈ l, m = f n := by
  induction l with
  | nil => simp [updateFirstNode] at hm
  | cons n rest ih =>
    rw [updateFirstNode] at hm
    by_cases hni : (n.id == i) = true
    · rw [if_pos hni] at hm
      rcases List.mem_cons.mp hm with rfl | hm'
      · exact Or.inr ⟨n, List.mem_cons_self n rest, rfl⟩
      · exact Or.inl (List.mem_cons_of_mem n hm')
    · rw [if_neg hni] at hm
      rcases List.mem_cons.mp hm with rfl | hm'
      · exact Or.inl (List.mem_cons_self m rest)
      · rcases ih hm' with h | ⟨n', hn', he⟩
        · exact Or.inl (List.mem_cons_of_mem n h)
        · exact Or.inr ⟨n', List.mem_cons_of_mem n hn', he⟩

theorem mem_updateFirstRoad (f : Road → Road) (l : List Road) (i : Nat) (m : Road)
    (hm : m ∈ updateFirstRoad f l i) : m ∈ l ∨ ∃ r ∈ l, m = f r := by
  induction l with
  | nil => simp [updateFirstRoad] at hm
  | cons n rest ih =>
    rw [updateFirstRoad] at hm
    by_cases hni : (n.id == i) = true
    · rw [if_pos hni] at hm
      rcases List.mem_cons.mp hm with rfl | hm'
      · exact Or.inr ⟨n, List.mem_cons_self n rest, rfl⟩
      · exact Or.inl (List.mem_cons_of_mem n hm')
    · rw [if_neg hni] at hm
      rcases List.mem_cons.mp hm with rfl | hm'
      · exact Or.inl (List.mem_cons_self m rest)
      · rcases ih hm' with h | ⟨n', hn', he⟩
        · exact Or.inl (List.mem_cons_of_mem n h)
        · exact Or.inr ⟨n', List.mem_cons_of_mem n hn', he⟩

/-- Updating node occupancy (occupant-only change) preserves topology
consistency. -/
theorem wf_updateNodes (b : Board) (f : Node → Node) (i : Nat)
    (hf : ∀ n, (f n).id = n.id ∧ (f n).adjacent_roads = n.adjacent_roads)
    (hwf : b.wf) : Board.wf { b with nodes := updateFirstNode f b.nodes i } := by
  constructor
  · intro r hr
    have hends := hwf.1 r hr
    have hfind : ∀ j : Nat,
        (Board.findNode { b with nodes := updateFirstNode f b.nodes i } j).isSome =
          (b.findNode j).isSome := by
      intro j
      show ((updateFirstNode f b.nodes i).find? (fun n => n.id == j)).isSome = _
      rw [find?_updateFirstNode f (fun n => (hf n).1) b.nodes i j]
      by_cases hij : i = j
      · rw [if_pos hij, Option.isSome_map']
        rfl
      · rw [if_neg hij]
        rfl
    rw [hfind, hfind]
    exact hends
  · intro n hn rid hrid
    rcases mem_updateFirstNode f b.nodes i n hn with h | ⟨n', hn', rfl⟩
    · exact hwf.2 n h rid hrid
    · rw [(hf n').2] at hrid
      exact hwf.2 n' hn' rid hrid

/-- Updating road ownership (owner-only change) preserves topology
consistency. -/
theorem wf_updateRoads (b : Board) (f : Road → Road) (i : Nat)
    (hf : ∀ r, (f r).id = r.id ∧ (f r).nodes = r.nodes)
    (hwf : b.wf) : Board.wf { b with roads := updateFirstRoad f b.roads i } := by
  constructor
  · intro r hr
    rcases mem_updateFirstRoad f b.roads i r hr with h | ⟨r', hr', rfl⟩
    · exact hwf.1 r h
    · rw [(hf r').2]
      exact hwf.1 r' hr'
  · intro n hn rid hrid
    have := hwf.2 n hn rid hrid
    show ((updateFirstRoad f b.roads i).find? (fun r => r.id == rid)).isSome = true
    rw [find?_updateFirstRoad f (fun r => (hf r).1) b.roads i rid]
    by_cases hij : i = rid
    · rw [if_pos hij, Option.isSome_map']
      exact this
    · rw [if_neg hij]
      exact this

/- ### The mutators: shapes, preservation of fields and well-formedness -/

theorem set_settlement_some (b : Board) (nid k : Nat) (b' : Board)
    (h : b.set_settlement nid k = some b') :
    b' = { b with nodes := updateFirstNode (fun n => { n with occupant := k }) b.nodes nid } := by
  rcases hn : b.findNode nid with _ | n
  · rw [Board.set_settlement, hn] at h
    exact Option.noConfusion h
  · rw [Board.set_settlement, hn] at h
    exact (Option.some.inj h).symm

theorem set_city_some (b : Board) (nid k : Nat) (b' : Board)
    (h : b.set_city nid k = some b') :
    b' = b ∨
      b' = { b with nodes := updateFirstNode (fun n => { n with occupant := n.occupant + 2 }) b.nodes nid } := by
  rcases hn : b.findNode nid with _ | n
  · rw [Board.set_city, hn] at h
    exact Option.noConfusion h
  · rw [Board.set_city, hn] at h
    dsimp only at h
    by_cases ho : (n.occupant == k) = true
    · rw [if_pos ho] at h
      exact Or.inr (Option.some.inj h).symm
    · rw [if_neg ho] at h
      exact Or.inl (Option.some.inj h).symm

theorem set_road_some (b : Board) (rid k : Nat) (b' : Board)
    (h : b.set_road rid k = some b') :
    b' = { b with roads := updateFirstRoad (fun r => { r with owner := k }) b.roads rid } := by
  rcases hr : b.findRoad rid with _ | r
  · rw [Board.set_road, hr] at h
    exact Option.noConfusion h
  · rw [Board.set_road, hr] at h
    exact (Option.some.inj h).symm

theorem set_settlement_wf (b : Board) (nid k : Nat) (b' : Board) (hwf : b.wf)
    (h : b.set_settlement nid k = some b') : b'.wf := by
  rw [set_settlement_some b nid k b' h]
  exact wf_updateNodes b _ nid (fun n => ⟨rfl, rfl⟩) hwf

theorem set_city_wf (b : Board) (nid k : Nat) (b' : Board) (hwf : b.wf)
    (h : b.set_city nid k = some b') : b'.wf := by
  rcases set_city_some b nid k b' h with rfl | he
  · exact hwf
  · rw [he]
    exact wf_updateNodes b _ nid (fun n => ⟨rfl, rfl⟩) hwf

theorem set_road_wf (b : Board) (rid k : Nat) (b' : Board) (hwf : b.wf)
    (h : b.set_road rid k = some b') : b'.wf := by
  rw [set_road_some b rid k b' h]
  exact wf_updateRoads b _ rid (fun r => ⟨rfl, rfl⟩) hwf

theorem set_settlement_isSome (b : Board) (nid k : Nat)
    (h : (b.findNode nid).isSome) : (b.set_settlement nid k).isSome := by
  rcases hn : b.findNode nid with _ | n
  · rw [hn] at h
    exact Bool.noConfusion h
  · rw [Board.set_settlement, hn]
    rfl

theorem set_city_isSome (b : Board) (nid k : Nat)
    (h : (b.findNode nid).isSome) : (b.set_city nid k).isSome := by
  rcases hn : b.findNode nid with _ | n
  · rw [hn] at h
    exact Bool.noConfusion h
  · rw [Board.set_city, hn]
    dsimp only
    by_cases ho : (n.occupant == k) = true
    · rw [if_pos ho]
      rfl
    · rw [if_neg ho]
      rfl

theorem set_road_isSome (b : Board) (rid k : Nat)
    (h : (b.findRoad rid).isSome) : (b.set_road rid k).isSome := by
  rcases hr : b.findRoad rid with _ | r
  · rw [hr] at h
    exact Bool.noConfusion h
  · rw [Board.set_road, hr]
    rfl

/- ### Totality (no exception) of the build pipeline on well-formed boards -/

theorem city_is_legal_isSome (b : Board) (nid k : Nat)
    (h : (b.findNode nid).isSome) : (b.city_is_legal nid k).isSome := by
  rcases hn : b.findNode nid with _ | n
  · rw [hn] at h
    exact Bool.noConfusion h
  · rw [Board.city_is_legal, hn]
    rfl

theorem can_build_settlement_isSome (p : Player) (b : Board) (hwf : b.wf) (nid : Nat)
    (fv : Bool) (h : (b.findNode nid).isSome) : (p.can_build_settlement b nid fv).isSome := by
  rw [Player.can_build_settlement]
  by_cases hcap : MAX_VILLAGES ≤ p.built.settlements
  · rw [if_pos hcap]
    rfl
  · rw [if_neg hcap]
    rcases hleg : b.settlement_is_legal nid p.id fv with _ | lv
    · have hs := settlement_is_legal_isSome b hwf nid p.id fv h
      rw [hleg] at hs
      exact Bool.noConfusion hs
    · cases lv <;> simp

theorem can_build_city_isSome (p : Player) (b : Board) (nid : Nat)
    (h : (b.findNode nid).isSome) : (p.can_build_city b nid).isSome := by
  rw [Player.can_build_city]
  by_cases hcap : MAX_CITIES ≤ p.built.cities
  · rw [if_pos hcap]
    rfl
  · rw [if_neg hcap]
    rcases hleg : b.city_is_legal nid p.id with _ | lv
    · have hs := city_is_legal_isSome b nid p.id h
      rw [hleg] at hs
      exact Bool.noConfusion hs
    · cases lv <;> simp

theorem can_build_road_isSome (p : Player) (b : Board) (hwf : b.wf) (rid : Nat)
    (fr : Bool) (h : (b.findRoad rid).isSome) : (p.can_build_road b rid fr).isSome := by
  rw [Player.can_build_road]
  by_cases hcap : MAX_ROADS ≤ p.built.roads
  · rw [if_pos hcap]
    rfl
  · rw [if_neg hcap]
    rcases hleg : b.road_is_legal rid p.id with _ | lv
    · have hs := road_is_legal_isSome b hwf rid p.id h
      rw [hleg] at hs
      exact Bool.noConfusion hs
    · cases lv <;> simp

theorem build_settlement_isSome (p : Player) (b : Board) (hwf : b.wf) (nid : Nat) (fv : Bool)
    (h : (b.findNode nid).isSome) : (p.build_settlement b nid fv).isSome := by
  rcases hcan : p.can_build_settlement b nid fv with _ | lv
  · have hs := can_build_settlement_isSome p b hwf nid fv h
    rw [hcan] at hs
    exact absurd hs (by simp)
  · cases lv
    · simp [Player.build_settlement, hcan]
    · rcases hset : b.set_settlement nid
          (if fv then p else p.deduct_resources SETTLEMENT_COST).id with _ | b1
      · have hs := set_settlement_isSome b nid
          (if fv then p else p.deduct_resources SETTLEMENT_COST).id h
        rw [hset] at hs
        exact absurd hs (by simp)
      · simp [Player.build_settlement, hcan, hset]

theorem build_settlement_board_wf (p : Player) (b : Board) (hwf : b.wf) (nid : Nat) (fv : Bool) :
    ∀ out, p.build_settlement b nid fv = some out → Board.wf out.2.2 := by
  intro out hout
  rcases hcan : p.can_build_settlement b nid fv with _ | lv
  · simp only [Player.build_settlement, hcan] at hout
    exact Option.noConfusion hout
  · cases lv
    · simp only [Player.build_settlement, hcan, Option.some.injEq] at hout
      subst hout
      exact hwf
    · simp only [Player.build_settlement, hcan] at hout
      rcases hset : b.set_settlement nid
          (if fv then p else p.deduct_resources SETTLEMENT_COST).id with _ | b1
      · simp only [hset] at hout
        exact Option.noConfusion hout
      · simp only [hset, Option.some.injEq] at hout
        subst hout
        exact set_settlement_wf b nid _ b1 hwf hset

theorem build_city_isSome (p : Player) (b : Board) (nid : Nat)
    (h : (b.findNode nid).isSome) : (p.build_city b nid).isSome := by
  rcases hcan : p.can_build_city b nid with _ | lv
  · have hs := can_build_city_isSome p b nid h
    rw [hcan] at hs
    exact absurd hs (by simp)
  · cases lv
    · simp [Player.build_city, hcan]
    · rcases hset : b.set_city nid (p.deduct_resources CITY_COST).id with _ | b1
      · have hs := set_city_isSome b nid (p.deduct_resources CITY_COST).id h
        rw [hset] at hs
        exact absurd hs (by simp)
      · simp [Player.build_city, hcan, hset]

theorem build_city_board_wf (p : Player) (b : Board) (hwf : b.wf) (nid : Nat) :
    ∀ out, p.build_city b nid = some out → Board.wf out.2.2 := by
  intro out hout
  rcases hcan : p.can_build_city b nid with _ | lv
  · simp only [Player.build_city, hcan] at hout
    exact Option.noConfusion hout
  · cases lv
    · simp only [Player.build_city, hcan, Option.some.injEq] at hout
      subst hout
      exact hwf
    · simp only [Player.build_city, hcan] at hout
      rcases hset : b.set_city nid (p.deduct_resources CITY_COST).id with _ | b1
      · simp only [hset] at hout
        exact Option.noConfusion hout
      · simp only [hset, Option.some.injEq] at hout
        subst hout
        exact set_city_wf b nid _ b1 hwf hset

theorem build_road_isSome (p : Player) (b : Board) (hwf : b.wf) (rid : Nat) (fr : Bool)
    (h : (b.findRoad rid).isSome) : (p.build_road b rid fr).isSome := by
  rcases hcan : p.can_build_road b rid fr with _ | lv
  · have hs := can_build_road_isSome p b hwf rid fr h
    rw [hcan] at hs
    exact absurd hs (by simp)
  · cases lv
    · simp [Player.build_road, hcan]
    · rcases hset : b.set_road rid
          (if fr then p else p.deduct_resources ROAD_COST).id with _ | b1
      · have hs := set_road_isSome b rid
          (if fr then p else p.deduct_resources ROAD_COST).id h
        rw [hset] at hs
        exact absurd hs (by simp)
      · simp [Player.build_road, hcan, hset]

theorem build_road_board_wf (p : Player) (b : Board) (hwf : b.wf) (rid : Nat) (fr : Bool) :
    ∀ out, p.build_road b rid fr = some out → Board.wf out.2.2 := by
  intro out hout
  rcases hcan : p.can_build_road b rid fr with _ | lv
  · simp only [Player.build_road, hcan] at hout
    exact Option.noConfusion hout
  · cases lv
    · simp only [Player.build_road, hcan, Option.some.injEq] at hout
      subst hout
      exact hwf
    · simp only [Player.build_road, hcan] at hout
      rcases hset : b.set_road rid
          (if fr then p else p.deduct_resources ROAD_COST).id with _ | b1
      · simp only [hset] at hout
        exact Option.noConfusion hout
      · simp only [hset, Option.some.injEq] at hout
        subst hout
        exact set_road_wf b rid _ b1 hwf hset

theorem set_player_board (g : Game) (pid : Nat) (p : Player) :
    (g.set_player pid p).board = g.board := by
  rw [Game.set_player]
  split <;> rfl

theorem roadGraphGo_isSome (b : Board) (k : Nat) (l : List Road)
    (h : ∀ r ∈ l, (b.findNode r.nodes.1).isSome ∧ (b.findNode r.nodes.2).isSome) :
    ∀ adj, (roadGraphGo b k l adj).isSome := by
  induction l with
  | nil =>
    intro adj
    rw [roadGraphGo]
    rfl
  | cons road rest ih =>
    intro adj
    have hr := h road (List.mem_cons_self road rest)
    have hrest := fun r hm => h r (List.mem_cons_of_mem road hm)
    rw [roadGraphGo]
    by_cases hro : (road.owner != k) = true
    · rw [if_pos hro]
      exact ih hrest _
    · rw [if_neg hro]
      rcases ha : b.findNode road.nodes.1 with _ | na
      · rw [ha] at hr
        exact absurd hr.1 (by simp)
      rcases hb2 : b.findNode road.nodes.2 with _ | nb
      · rw [hb2] at hr
        exact absurd hr.2 (by simp)
      dsimp only
      by_cases hbl : (blockedOccupant k na.occupant && blockedOccupant k nb.occupant) = true
      · rw [if_pos hbl]
        exact ih hrest _
      · rw [if_neg hbl]
        exact ih hrest _

theorem computeLongestRoad_isSome (g : Game) (hwf : g.board.wf) (k : Nat) :
    (g.computeLongestRoadForPlayer k).isSome := by
  have h := roadGraphGo_isSome g.board k g.board.roads (fun r hr => hwf.1 r hr) []
  rw [Game.computeLongestRoadForPlayer]
  rcases hg : g.playerRoadGraph k with _ | adj
  · rw [Game.playerRoadGraph] at hg
    rw [hg] at h
    exact Bool.noConfusion h
  · cases adj <;> rfl

theorem update_longest_road_isSome (g : Game) (hwf : g.board.wf) :
    g.update_longest_road.isSome := by
  have h1 := computeLongestRoad_isSome g hwf 1
  have h2 := computeLongestRoad_isSome g hwf 2
  rw [Game.update_longest_road]
  rcases hc1 : g.computeLongestRoadForPlayer 1 with _ | l1
  · rw [hc1] at h1
    exact Bool.noConfusion h1
  rcases hc2 : g.computeLongestRoadForPlayer 2 with _ | l2
  · rw [hc2] at h2
    exact Bool.noConfusion h2
  dsimp only
  split_ifs <;> rfl

theorem perform_build_settlement_some_wf (g : Game) (hwf : g.board.wf) (nid : Nat)
    (hn : (g.board.findNode nid).isSome) :
    ∃ g1 s, g.perform_build_action (.build_settlement nid) = some (g1, s) ∧ g1.board.wf := by
  have hbs := build_settlement_isSome (g.get_player g.current_player_id) g.board hwf nid
    (if g.turn_number < 4 then (g.initial_buildings_placed.get g.turn_number).1 == false
      else false) hn
  rcases hb : (g.get_player g.current_player_id).build_settlement g.board nid
      (if g.turn_number < 4 then (g.initial_buildings_placed.get g.turn_number).1 == false
        else false) with _ | out
  · rw [hb] at hbs
    exact absurd hbs (by simp)
  · obtain ⟨s, q, c⟩ := out
    have hcwf : Board.wf c := build_settlement_board_wf (g.get_player g.current_player_id)
      g.board hwf nid _ (s, q, c) hb
    simp only [Game.perform_build_action, hb]
    by_cases ht : g.turn_number < 4
    · rw [if_pos ht]
      refine ⟨_, s, rfl, ?_⟩
      show (({ g with board := c }).set_player g.current_player_id q).board.wf
      rw [set_player_board]
      exact hcwf
    · rw [if_neg ht]
      refine ⟨_, s, rfl, ?_⟩
      show (({ g with board := c }).set_player g.current_player_id q).board.wf
      rw [set_player_board]
      exact hcwf

theorem perform_build_city_some_wf (g : Game) (hwf : g.board.wf) (nid : Nat)
    (hn : (g.board.findNode nid).isSome) :
    ∃ g1 s, g.perform_build_action (.build_city nid) = some (g1, s) ∧ g1.board.wf := by
  have hbs := build_city_isSome (g.get_player g.current_player_id) g.board nid hn
  rcases hb : (g.get_player g.current_player_id).build_city g.board nid with _ | out
  · rw [hb] at hbs
    exact absurd hbs (by simp)
  · obtain ⟨s, q, c⟩ := out
    have hcwf : Board.wf c := build_city_board_wf (g.get_player g.current_player_id)
      g.board hwf nid (s, q, c) hb
    simp only [Game.perform_build_action, hb]
    refine ⟨_, s, rfl, ?_⟩
    show (({ g with board := c }).set_player g.current_player_id q).board.wf
    rw [set_player_board]
    exact hcwf

theorem perform_build_road_some_wf (g : Game) (hwf : g.board.wf) (rid : Nat)
    (hr : (g.board.findRoad rid).isSome) :
    ∃ g1 s, g.perform_build_action (.build_road rid) = some (g1, s) ∧ g1.board.wf := by
  have hbs := build_road_isSome (g.get_player g.current_player_id) g.board hwf rid
    (if g.turn_number < 4 then (g.initial_buildings_placed.get g.turn_number).2 == false
      else false) hr
  rcases hb : (g.get_player g.current_player_id).build_road g.board rid
      (if g.turn_number < 4 then (g.initial_buildings_placed.get g.turn_number).2 == false
        else false) with _ | out
  · rw [hb] at hbs
    exact absurd hbs (by simp)
  · obtain ⟨s, q, c⟩ := out
    have hcwf : Board.wf c := build_road_board_wf (g.get_player g.current_player_id)
      g.board hwf rid _ (s, q, c) hb
    simp only [Game.perform_build_action, hb]
    by_cases ht : g.turn_number < 4
    · rw [if_pos ht]
      refine ⟨_, s, rfl, ?_⟩
      show (({ g with board := c }).set_player g.current_player_id q).board.wf
      rw [set_player_board]
      exact hcwf
    · rw [if_neg ht]
      refine ⟨_, s, rfl, ?_⟩
      show (({ g with board := c }).set_player g.current_player_id q).board.wf
      rw [set_player_board]
      exact hcwf

/-- Claim C9 (amended): failures are reported as the boolean result False and
not as exceptions for a finished game (every action) and for unknown action
kinds, and build actions on targets that exist on a well-formed board never
raise — but a target id absent from the board raises a KeyError (none)
instead of returning False, as the separate counterexample shows. -/
theorem advance_failure_reporting (g : Game) (hwf : g.board.wf) :
    (g.finished = true → ∀ a, g.advance_one_action a = some (g, false)) ∧
    (g.advance_one_action .unknown = some (g, false)) ∧
    (∀ nid, (g.board.findNode nid).isSome →
      g.advance_one_action (.build_settlement nid) ≠ none) ∧
    (∀ nid, (g.board.findNode nid).isSome →
      g.advance_one_action (.build_city nid) ≠ none) ∧
    (∀ rid, (g.board.findRoad rid).isSome →
      g.advance_one_action (.build_road rid) ≠ none) := by
  refine ⟨?_, ?_, ?_, ?_, ?_⟩
  · intro hfin a
    rw [Game.advance_one_action.eq_def, if_pos hfin]
  · by_cases hfin : g.finished = true
    · rw [Game.advance_one_action.eq_def, if_pos hfin]
    · rw [Game.advance_one_action.eq_def, if_neg hfin]
  · intro nid hn
    by_cases hfin : g.finished = true
    · rw [Game.advance_one_action.eq_def, if_pos hfin]
      simp
    · rw [Game.advance_one_action.eq_def, if_neg hfin]
      dsimp only
      obtain ⟨g1, s, hp, hwf1⟩ := perform_build_settlement_some_wf g hwf nid hn
      rw [hp]
      dsimp only
      cases s
      · simp
      · have hu := update_longest_road_isSome g1 hwf1
        rcases hup : g1.update_longest_road with _ | g2
        · rw [hup] at hu
          exact absurd hu (by simp)
        · simp [Action.isRoadOrSettlementBuild, hup]
  · intro nid hn
    by_cases hfin : g.finished = true
    · rw [Game.advance_one_action.eq_def, if_pos hfin]
      simp
    · rw [Game.advance_one_action.eq_def, if_neg hfin]
      dsimp only
      obtain ⟨g1, s, hp, hwf1⟩ := perform_build_city_some_wf g hwf nid hn
      rw [hp]
      dsimp only
      cases s
      · simp
      · simp [Action.isRoadOrSettlementBuild]
  · intro rid hr
    by_cases hfin : g.finished = true
    · rw [Game.advance_one_action.eq_def, if_pos hfin]
      simp
    · rw [Game.advance_one_action.eq_def, if_neg hfin]
      dsimp only
      obtain ⟨g1, s, hp, hwf1⟩ := perform_build_road_some_wf g hwf rid hr
      rw [hp]
      dsimp only
      cases s
      · simp
      · have hu := update_longest_road_isSome g1 hwf1
        rcases hup : g1.update_longest_road with _ | g2
        · rw [hup] at hu
          exact absurd hu (by simp)
        · simp [Action.isRoadOrSettlementBuild, hup]

/-- Witness for claim C9 on the fresh game over boardOneNode (a well-formed
board), with node 0 present. -/
theorem advance_failure_reporting_witness :
    ((initGame boardOneNode).finished = true →
      ∀ a, (initGame boardOneNode).advance_one_action a = some (initGame boardOneNode, false)) ∧
    ((initGame boardOneNode).advance_one_action .unknown = some (initGame boardOneNode, false)) ∧
    (∀ nid, ((initGame boardOneNode).board.findNode nid).isSome →
      (initGame boardOneNode).advance_one_action (.build_settlement nid) ≠ none) ∧
    (∀ nid, ((initGame boardOneNode).board.findNode nid).isSome →
      (initGame boardOneNode).advance_one_action (.build_city nid) ≠ none) ∧
    (∀ rid, ((initGame boardOneNode).board.findRoad rid).isSome →
      (initGame boardOneNode).advance_one_action (.build_road rid) ≠ none) :=
  advance_failure_reporting (initGame boardOneNode) (by decide)

/- ### Inversion lemmas for successful legality and capability checks -/

theorem settlement_is_legal_true_empty (b : Board) (nid k : Nat) (st : Bool)
    (h : b.settlement_is_legal nid k st = some true) :
    ∃ n, b.findNode nid = some n ∧ n.occupant = 0 := by
  rcases hn : b.findNode nid with _ | n
  · rw [Board.settlement_is_legal, hn] at h
    exact Option.noConfusion h
  · refine ⟨n, rfl, ?_⟩
    rw [Board.settlement_is_legal, hn] at h
    dsimp only at h
    by_cases hst : st = true
    · rw [if_pos hst] at h
      exact beq_iff_eq.mp (Option.some.inj h)
    · rw [if_neg hst] at h
      by_cases hocc : (n.occupant != 0) = true
      · rw [if_pos hocc] at h
        exact absurd (Option.some.inj h) (by simp)
      · simpa using hocc

theorem city_is_legal_true (b : Board) (nid k : Nat)
    (h : b.city_is_legal nid k = some true) :
    ∃ n, b.findNode nid = some n ∧ n.occupant = k := by
  rcases hn : b.findNode nid with _ | n
  · rw [Board.city_is_legal, hn] at h
    exact Option.noConfusion h
  · rw [Board.city_is_legal, hn] at h
    exact ⟨n, rfl, beq_iff_eq.mp (Option.some.inj h)⟩

theorem road_is_legal_true_unowned (b : Board) (rid k : Nat)
    (h : b.road_is_legal rid k = some true) :
    ∃ road, b.findRoad rid = some road ∧ road.owner = 0 := by
  rcases hr : b.findRoad rid with _ | road
  · rw [Board.road_is_legal, hr] at h
    exact Option.noConfusion h
  · refine ⟨road, rfl, ?_⟩
    rw [Board.road_is_legal, hr] at h
    dsimp only at h
    by_cases how : (road.owner != 0) = true
    · rw [if_pos how] at h
      exact absurd (Option.some.inj h) (by simp)
    · simpa using how

theorem can_build_settlement_true (p : Player) (b : Board) (nid : Nat) (fv : Bool)
    (h : p.can_build_settlement b nid fv = some true) :
    b.settlement_is_legal nid p.id fv = some true ∧
      (fv = true ∨ p.has_resources SETTLEMENT_COST = true) := by
  rw [Player.can_build_settlement] at h
  by_cases hcap : MAX_VILLAGES ≤ p.built.settlements
  · rw [if_pos hcap] at h
    exact absurd (Option.some.inj h) (by simp)
  · rw [if_neg hcap] at h
    rcases hleg : b.settlement_is_legal nid p.id fv with _ | lv
    · rw [hleg] at h
      exact Option.noConfusion h
    · rw [hleg] at h
      cases lv
      · simp at h
      · refine ⟨rfl, ?_⟩
        cases fv
        · refine Or.inr ?_
          simpa using h
        · exact Or.inl rfl

theorem can_build_city_true (p : Player) (b : Board) (nid : Nat)
    (h : p.can_build_city b nid = some true) :
    b.city_is_legal nid p.id = some true ∧ p.has_resources CITY_COST = true := by
  rw [Player.can_build_city] at h
  by_cases hcap : MAX_CITIES ≤ p.built.cities
  · rw [if_pos hcap] at h
    exact absurd (Option.some.inj h) (by simp)
  · rw [if_neg hcap] at h
    rcases hleg : b.city_is_legal nid p.id with _ | lv
    · rw [hleg] at h
      exact Option.noConfusion h
    · rw [hleg] at h
      cases lv
      · simp at h
      · refine ⟨rfl, ?_⟩
        simpa using h

theorem can_build_road_true (p : Player) (b : Board) (rid : Nat) (fr : Bool)
    (h : p.can_build_road b rid fr = some true) :
    b.road_is_legal rid p.id = some true ∧
      (fr = true ∨ p.has_resources ROAD_COST = true) := by
  rw [Player.can_build_road] at h
  by_cases hcap : MAX_ROADS ≤ p.built.roads
  · rw [if_pos hcap] at h
    exact absurd (Option.some.inj h) (by simp)
  · rw [if_neg hcap] at h
    rcases hleg : b.road_is_legal rid p.id with _ | lv
    · rw [hleg] at h
      exact Option.noConfusion h
    · rw [hleg] at h
      cases lv
      · simp at h
      · refine ⟨rfl, ?_⟩
        cases fr
        · refine Or.inr ?_
          simpa using h
        · exact Or.inl rfl

theorem deduct_resources_fields (cost : List (Resource × Int)) :
    ∀ p : Player, (p.deduct_resources cost).id = p.id ∧ (p.deduct_resources cost).built = p.built := by
  induction cost with
  | nil =>
    intro p
    exact ⟨rfl, rfl⟩
  | cons c rest ih =>
    intro p
    have hstep : p.deduct_resources (c :: rest) =
        ({ p with resources := p.resources.set c.1 (p.resources.get c.1 - c.2) }).deduct_resources rest := rfl
    rw [hstep]
    exact ih _

/- ### Full characterizations of the three build operations -/

theorem build_settlement_spec (p : Player) (b : Board) (nid : Nat) (fv : Bool)
    (out : Bool × Player × Board) (h : p.build_settlement b nid fv = some out) :
    (out = (false, p, b)) ∨
    (out.1 = true ∧ ∃ n, b.findNode nid = some n ∧ n.occupant = 0 ∧
      out.2.1.id = p.id ∧
      out.2.1.built.settlements = p.built.settlements + 1 ∧
      out.2.1.built.cities = p.built.cities ∧
      (out.2.1.resources = p.resources ∨
        (p.has_resources SETTLEMENT_COST = true ∧
          out.2.1.resources = (p.deduct_resources SETTLEMENT_COST).resources)) ∧
      out.2.2 = { b with nodes := updateFirstNode (fun m => { m with occupant := p.id }) b.nodes nid }) := by
  rcases hcan : p.can_build_settlement b nid fv with _ | lv
  · simp only [Player.build_settlement, hcan] at h
    exact Option.noConfusion h
  · cases lv
    · simp only [Player.build_settlement, hcan, Option.some.injEq] at h
      exact Or.inl h.symm
    · obtain ⟨hleg, hres⟩ := can_build_settlement_true p b nid fv hcan
      obtain ⟨n, hn, hocc⟩ := settlement_is_legal_true_empty b nid p.id fv hleg
      have hid : (if fv then p else p.deduct_resources SETTLEMENT_COST).id = p.id := by
        cases fv
        · exact (deduct_resources_fields SETTLEMENT_COST p).1
        · rfl
      have hbuilt : (if fv then p else p.deduct_resources SETTLEMENT_COST).built = p.built := by
        cases fv
        · exact (deduct_resources_fields SETTLEMENT_COST p).2
        · rfl
      have hres' : (if fv then p else p.deduct_resources SETTLEMENT_COST).resources = p.resources ∨
          (p.has_resources SETTLEMENT_COST = true ∧
            (if fv then p else p.deduct_resources SETTLEMENT_COST).resources =
              (p.deduct_resources SETTLEMENT_COST).resources) := by
        cases fv
        · refine Or.inr ⟨?_, rfl⟩
          rcases hres with h' | h'
          · exact Bool.noConfusion h'
          · exact h'
        · exact Or.inl rfl
      simp only [Player.build_settlement, hcan] at h
      rcases hset : b.set_settlement nid
          (if fv then p else p.deduct_resources SETTLEMENT_COST).id with _ | b1
      · simp only [hset] at h
        exact Option.noConfusion h
      · simp only [hset, Option.some.injEq] at h
        subst h
        have hb1 := set_settlement_some b nid
          (if fv then p else p.deduct_resources SETTLEMENT_COST).id b1 hset
        refine Or.inr ⟨rfl, n, hn, hocc, hid, ?_, ?_, ?_, ?_⟩
        · dsimp only
          rw [hbuilt]
        · dsimp only
          rw [hbuilt]
        · rcases hres' with h' | ⟨hh, h'⟩
          · exact Or.inl h'
          · exact Or.inr ⟨hh, h'⟩
        · dsimp only
          rw [hb1, hid]

theorem build_city_spec (p : Player) (b : Board) (nid : Nat)
    (out : Bool × Player × Board) (h : p.build_city b nid = some out) :
    (out = (false, p, b)) ∨
    (out.1 = true ∧ ∃ n, b.findNode nid = some n ∧ n.occupant = p.id ∧
      out.2.1.id = p.id ∧
      out.2.1.built.settlements = p.built.settlements - 1 ∧
      out.2.1.built.cities = p.built.cities + 1 ∧
      p.has_resources CITY_COST = true ∧
      out.2.1.resources = (p.deduct_resources CITY_COST).resources ∧
      out.2.2 = { b with nodes := updateFirstNode (fun m => { m with occupant := m.occupant + 2 }) b.nodes nid }) := by
  rcases hcan : p.can_build_city b nid with _ | lv
  · simp only [Player.build_city, hcan] at h
    exact Option.noConfusion h
  · cases lv
    · simp only [Player.build_city, hcan, Option.some.injEq] at h
      exact Or.inl h.symm
    · obtain ⟨hleg, hhas⟩ := can_build_city_true p b nid hcan
      obtain ⟨n, hn, hocc⟩ := city_is_legal_true b nid p.id hleg
      have hkid : (p.deduct_resources CITY_COST).id = p.id := (deduct_resources_fields CITY_COST p).1
      have hbuilt : (p.deduct_resources CITY_COST).built = p.built := (deduct_resources_fields CITY_COST p).2
      have hcond : (n.occupant == (p.deduct_resources CITY_COST).id) = true := by
        rw [hkid, hocc]
        exact beq_self_eq_true p.id
      have hset : b.set_city nid (p.deduct_resources CITY_COST).id =
          some { b with nodes := updateFirstNode (fun m => { m with occupant := m.occupant + 2 }) b.nodes nid } := by
        rw [Board.set_city, hn]
        dsimp only
        rw [if_pos hcond]
      simp only [Player.build_city, hcan, hset, Option.some.injEq] at h
      subst h
      refine Or.inr ⟨rfl, n, hn, hocc, hkid, ?_, ?_, hhas, rfl, rfl⟩
      · dsimp only
        rw [hbuilt]
      · dsimp only
        rw [hbuilt]

theorem build_road_spec (p : Player) (b : Board) (rid : Nat) (fr : Bool)
    (out : Bool × Player × Board) (h : p.build_road b rid fr = some out) :
    (out = (false, p, b)) ∨
    (out.1 = true ∧ ∃ road, b.findRoad rid = some road ∧ road.owner = 0 ∧
      out.2.1.id = p.id ∧
      out.2.1.built.settlements = p.built.settlements ∧
      out.2.1.built.cities = p.built.cities ∧
      (out.2.1.resources = p.resources ∨
        (p.has_resources ROAD_COST = true ∧
          out.2.1.resources = (p.deduct_resources ROAD_COST).resources)) ∧
      out.2.2 = { b with roads := updateFirstRoad (fun r => { r with owner := p.id }) b.roads rid }) := by
  rcases hcan : p.can_build_road b rid fr with _ | lv
  · simp only [Player.build_road, hcan] at h
    exact Option.noConfusion h
  · cases lv
    · simp only [Player.build_road, hcan, Option.some.injEq] at h
      exact Or.inl h.symm
    · obtain ⟨hleg, hres⟩ := can_build_road_true p b rid fr hcan
      obtain ⟨road, hr, how⟩ := road_is_legal_true_unowned b rid p.id hleg
      have hid : (if fr then p else p.deduct_resources ROAD_COST).id = p.id := by
        cases fr
        · exact (deduct_resources_fields ROAD_COST p).1
        · rfl
      have hbuilt : (if fr then p else p.deduct_resources ROAD_COST).built = p.built := by
        cases fr
        · exact (deduct_resources_fields ROAD_COST p).2
        · rfl
      have hres' : (if fr then p else p.deduct_resources ROAD_COST).resources = p.resources ∨
          (p.has_resources ROAD_COST = true ∧
            (if fr then p else p.deduct_resources ROAD_COST).resources =
              (p.deduct_resources ROAD_COST).resources) := by
        cases fr
        · refine Or.inr ⟨?_, rfl⟩
          rcases hres with h' | h'
          · exact Bool.noConfusion h'
          · exact h'
        · exact Or.inl rfl
      simp only [Player.build_road, hcan] at h
      rcases hset : b.set_road rid
          (if fr then p else p.deduct_resources ROAD_COST).id with _ | b1
      · simp only [hset] at h
        exact Option.noConfusion h
      · simp only [hset, Option.some.injEq] at h
        subst h
        have hb1 := set_road_some b rid
          (if fr then p else p.deduct_resources ROAD_COST).id b1 hset
        refine Or.inr ⟨rfl, road, hr, how, hid, ?_, ?_, ?_, ?_⟩
        · dsimp only
          rw [hbuilt]
        · dsimp only
          rw [hbuilt]
        · rcases hres' with h' | ⟨hh, h'⟩
          · exact Or.inl h'
          · exact Or.inr ⟨hh, h'⟩
        · dsimp only
          rw [hb1, hid]

/- ### Characterization of perform_build_action and the post-build steps -/

theorem perform_build_settlement_char (g : Game) (nid : Nat) (out : Game × Bool)
    (h : g.perform_build_action (.build_settlement nid) = some out) :
    ∃ pb : Bool × Player × Board,
      (g.get_player g.current_player_id).build_settlement g.board nid
        (if g.turn_number < 4 then (g.initial_buildings_placed.get g.turn_number).1 == false
          else false) = some pb ∧
      out.2 = pb.1 ∧ out.1.board = pb.2.2 ∧
      ((g.current_player_id == 1) = true → out.1.p1 = pb.2.1 ∧ out.1.p2 = g.p2) ∧
      ((g.current_player_id == 1) = false → out.1.p1 = g.p1 ∧ out.1.p2 = pb.2.1) := by
  rcases hb : (g.get_player g.current_player_id).build_settlement g.board nid
      (if g.turn_number < 4 then (g.initial_buildings_placed.get g.turn_number).1 == false
        else false) with _ | pb
  · simp only [Game.perform_build_action, hb] at h
    exact Option.noConfusion h
  · obtain ⟨s, q, c⟩ := pb
    simp only [Game.perform_build_action, hb] at h
    have hx := Option.some.inj h
    subst hx
    refine ⟨(s, q, c), rfl, rfl, ?_, ?_, ?_⟩
    · by_cases ht : g.turn_number < 4 <;> simp [ht, set_player_board]
    · intro hcp
      by_cases ht : g.turn_number < 4 <;> simp [ht, Game.set_player, hcp]
    · intro hcp
      by_cases ht : g.turn_number < 4 <;> simp [ht, Game.set_player, hcp]

theorem perform_build_city_char (g : Game) (nid : Nat) (out : Game × Bool)
    (h : g.perform_build_action (.build_city nid) = some out) :
    ∃ pb : Bool × Player × Board,
      (g.get_player g.current_player_id).build_city g.board nid = some pb ∧
      out.2 = pb.1 ∧ out.1.board = pb.2.2 ∧
      ((g.current_player_id == 1) = true → out.1.p1 = pb.2.1 ∧ out.1.p2 = g.p2) ∧
      ((g.current_player_id == 1) = false → out.1.p1 = g.p1 ∧ out.1.p2 = pb.2.1) := by
  rcases hb : (g.get_player g.current_player_id).build_city g.board nid with _ | pb
  · simp only [Game.perform_build_action, hb] at h
    exact Option.noConfusion h
  · obtain ⟨s, q, c⟩ := pb
    simp only [Game.perform_build_action, hb] at h
    have hx := Option.some.inj h
    subst hx
    refine ⟨(s, q, c), rfl, rfl, ?_, ?_, ?_⟩
    · simp [set_player_board]
    · intro hcp
      simp [Game.set_player, hcp]
    · intro hcp
      simp [Game.set_player, hcp]

theorem perform_build_road_char (g : Game) (rid : Nat) (out : Game × Bool)
    (h : g.perform_build_action (.build_road rid) = some out) :
    ∃ pb : Bool × Player × Board,
      (g.get_player g.current_player_id).build_road g.board rid
        (if g.turn_number < 4 then (g.initial_buildings_placed.get g.turn_number).2 == false
          else false) = some pb ∧
      out.2 = pb.1 ∧ out.1.board = pb.2.2 ∧
      ((g.current_player_id == 1) = true → out.1.p1 = pb.2.1 ∧ out.1.p2 = g.p2) ∧
      ((g.current_player_id == 1) = false → out.1.p1 = g.p1 ∧ out.1.p2 = pb.2.1) := by
  rcases hb : (g.get_player g.current_player_id).build_road g.board rid
      (if g.turn_number < 4 then (g.initial_buildings_placed.get g.turn_number).2 == false
        else false) with _ | pb
  · simp only [Game.perform_build_action, hb] at h
    exact Option.noConfusion h
  · obtain ⟨s, q, c⟩ := pb
    simp only [Game.perform_build_action, hb] at h
    have hx := Option.some.inj h
    subst hx
    refine ⟨(s, q, c), rfl, rfl, ?_, ?_, ?_⟩
    · by_cases ht : g.turn_number < 4 <;> simp [ht, set_player_board]
    · intro hcp
      by_cases ht : g.turn_number < 4 <;> simp [ht, Game.set_player, hcp]
    · intro hcp
      by_cases ht : g.turn_number < 4 <;> simp [ht, Game.set_player, hcp]

theorem update_longest_road_preserves (g g' : Game) (h : g.update_longest_road = some g') :
    g'.board = g.board ∧ g'.p1 = g.p1 ∧ g'.p2 = g.p2 := by
  rw [Game.update_longest_road] at h
  rcases hc1 : g.computeLongestRoadForPlayer 1 with _ | l1 <;> rw [hc1] at h
  · exact Option.noConfusion h
  rcases hc2 : g.computeLongestRoadForPlayer 2 with _ | l2 <;> rw [hc2] at h
  · exact Option.noConfusion h
  dsimp only at h
  split_ifs at h <;> (rw [← Option.some.inj h]; exact ⟨rfl, rfl, rfl⟩)

theorem check_win_preserves (g : Game) :
    g.check_win_condition.board = g.board ∧ g.check_win_condition.p1 = g.p1 ∧
      g.check_win_condition.p2 = g.p2 := by
  rw [Game.check_win_condition]
  dsimp only
  split_ifs <;> exact ⟨rfl, rfl, rfl⟩

/-- The update/win steps that advance_one_action runs after a build leave the
board and both players untouched; the returned flag is the build's flag. -/
theorem advance_build_post (g1 : Game) (s : Bool) (a : Action) (out : Game × Bool)
    (hout : (match (if s && a.isRoadOrSettlementBuild then g1.update_longest_road else some g1) with
      | none => none
      | some g2 => some (if s then (g2.check_win_condition, s) else (g2, s))) = some out) :
    out.1.board = g1.board ∧ out.1.p1 = g1.p1 ∧ out.1.p2 = g1.p2 ∧ out.2 = s := by
  rcases hq : (if s && a.isRoadOrSettlementBuild then g1.update_longest_road else some g1) with _ | g2
  · rw [hq] at hout
    exact Option.noConfusion hout
  · rw [hq] at hout
    have hg2 : g2.board = g1.board ∧ g2.p1 = g1.p1 ∧ g2.p2 = g1.p2 := by
      by_cases hsb : (s && a.isRoadOrSettlementBuild) = true
      · rw [if_pos hsb] at hq
        exact update_longest_road_preserves g1 g2 hq
      · rw [if_neg hsb] at hq
        rw [← Option.some.inj hq]
        exact ⟨rfl, rfl, rfl⟩
    rw [← Option.some.inj hout]
    cases s
    · rw [if_neg (by simp)]
      exact ⟨hg2.1, hg2.2.1, hg2.2.2, rfl⟩
    · rw [if_pos rfl]
      refine ⟨?_, ?_, ?_, rfl⟩
      · rw [(check_win_preserves g2).1, hg2.1]
      · rw [(check_win_preserves g2).2.1, hg2.2.1]
      · rw [(check_win_preserves g2).2.2, hg2.2.2]

/- ### Resource bookkeeping facts for dice production, trading, turn flow -/

theorem add_resource_fields (p : Player) (r : Resource) (amt : Int) :
    (p.add_resource r amt).id = p.id ∧ (p.add_resource r amt).built = p.built :=
  ⟨rfl, rfl⟩

theorem add_resource_nonneg (p : Player) (r : Resource) (amt : Int) (hamt : 0 ≤ amt)
    (hp : nonnegResources p) : nonnegResources (p.add_resource r amt) := by
  intro x
  have hx := hp x
  have hr := hp r
  cases x <;> cases r <;>
    simp_all [Player.add_resource, Resources.set, Resources.get] <;> omega

theorem handle_bank_trade_fields (p : Player) (o w : Resource) (c : Int) :
    (handle_bank_trade p o w c).id = p.id ∧ (handle_bank_trade p o w c).built = p.built := by
  rw [handle_bank_trade]
  exact ⟨rfl, rfl⟩

theorem switch_player_fields (g : Game) :
    g.switch_player.board = g.board ∧ g.switch_player.p1 = g.p1 ∧ g.switch_player.p2 = g.p2 :=
  ⟨rfl, rfl, rfl⟩

theorem distribute_fold_facts (events : List (Nat × Resource)) :
    ∀ g : Game,
      ((events.foldl (fun gg e => gg.set_player e.1 ((gg.get_player e.1).add_resource e.2 1)) g).board = g.board) ∧
      ((events.foldl (fun gg e => gg.set_player e.1 ((gg.get_player e.1).add_resource e.2 1)) g).p1.built = g.p1.built) ∧
      ((events.foldl (fun gg e => gg.set_player e.1 ((gg.get_player e.1).add_resource e.2 1)) g).p2.built = g.p2.built) ∧
      ((events.foldl (fun gg e => gg.set_player e.1 ((gg.get_player e.1).add_resource e.2 1)) g).p1.id = g.p1.id) ∧
      ((events.foldl (fun gg e => gg.set_player e.1 ((gg.get_player e.1).add_resource e.2 1)) g).p2.id = g.p2.id) ∧
      (nonnegResources g.p1 →
        nonnegResources (events.foldl (fun gg e => gg.set_player e.1 ((gg.get_player e.1).add_resource e.2 1)) g).p1) ∧
      (nonnegResources g.p2 →
        nonnegResources (events.foldl (fun gg e => gg.set_player e.1 ((gg.get_player e.1).add_resource e.2 1)) g).p2) := by
  induction events with
  | nil =>
    intro g
    exact ⟨rfl, rfl, rfl, rfl, rfl, fun h => h, fun h => h⟩
  | cons e rest ih =>
    intro g
    rw [List.foldl_cons]
    obtain ⟨ihb, ihb1, ihb2, ihi1, ihi2, ihn1, ihn2⟩ :=
      ih (g.set_player e.1 ((g.get_player e.1).add_resource e.2 1))
    by_cases he : (e.1 == 1) = true
    · have hset : g.set_player e.1 ((g.get_player e.1).add_resource e.2 1) =
          { g with p1 := g.p1.add_resource e.2 1 } := by
        simp [Game.set_player, Game.get_player, he]
      rw [hset] at ihb ihb1 ihb2 ihi1 ihi2 ihn1 ihn2 ⊢
      refine ⟨ihb, ihb1, ihb2, ihi1, ihi2, ?_, ihn2⟩
      intro h1
      exact ihn1 (add_resource_nonneg g.p1 e.2 1 (by omega) h1)
    · have hset : g.set_player e.1 ((g.get_player e.1).add_resource e.2 1) =
          { g with p2 := g.p2.add_resource e.2 1 } := by
        simp [Game.set_player, Game.get_player, he]
      rw [hset] at ihb ihb1 ihb2 ihi1 ihi2 ihn1 ihn2 ⊢
      refine ⟨ihb, ihb1, ihb2, ihi1, ihi2, ihn1, ?_⟩
      intro h2
      exact ihn2 (add_resource_nonneg g.p2 e.2 1 (by omega) h2)

theorem distribute_resources_facts (g : Game) (roll : List (Nat × Nat)) (g' : Game)
    (h : g.distribute_resources roll = some g') :
    g'.board = g.board ∧ g'.p1.built = g.p1.built ∧ g'.p2.built = g.p2.built ∧
    g'.p1.id = g.p1.id ∧ g'.p2.id = g.p2.id ∧
    (nonnegResources g.p1 → nonnegResources g'.p1) ∧
    (nonnegResources g.p2 → nonnegResources g'.p2) := by
  rw [Game.distribute_resources] at h
  rcases hd : roll.getLast? with _ | d <;> rw [hd] at h
  · exact Option.noConfusion h
  dsimp only at h
  rcases hp : g.board.get_production_for_roll (d.1 + d.2) with _ | events <;> rw [hp] at h
  · exact Option.noConfusion h
  dsimp only at h
  rw [← Option.some.inj h]
  exact distribute_fold_facts events g

theorem turn_start_facts (g : Game) (roll : List (Nat × Nat)) (g' : Game)
    (h : g.turn_start roll = some g') :
    g'.board = g.board ∧ g'.p1.built = g.p1.built ∧ g'.p2.built = g.p2.built ∧
    g'.p1.id = g.p1.id ∧ g'.p2.id = g.p2.id ∧
    (nonnegResources g.p1 → nonnegResources g'.p1) ∧
    (nonnegResources g.p2 → nonnegResources g'.p2) := by
  rw [Game.turn_start] at h
  dsimp only at h
  by_cases ht : 4 ≤ g.turn_number + 1
  · rw [if_pos ht] at h
    rcases hd : ({ g with turn_number := g.turn_number + 1 } : Game).distribute_resources roll
        with _ | g2 <;> rw [hd] at h
    · exact Option.noConfusion h
    · have hf := distribute_resources_facts _ roll g2 hd
      rw [← Option.some.inj h]
      exact hf
  · rw [if_neg ht] at h
    rw [← Option.some.inj h]
    exact ⟨rfl, rfl, rfl, rfl, rfl, fun x => x, fun x => x⟩

/- ### Non-negativity of resources through checked deductions -/

theorem deduct_settlement_cost_nonneg (p : Player) (hp : nonnegResources p)
    (h : p.has_resources SETTLEMENT_COST = true) :
    ∀ r, 0 ≤ (p.deduct_resources SETTLEMENT_COST).resources.get r := by
  have hb := hp .brick
  have hw := hp .wood
  have hs := hp .sheep
  have hh := hp .wheat
  have ho := hp .ore
  simp only [Resources.get] at hb hw hs hh ho
  simp [Player.has_resources, SETTLEMENT_COST, Resources.get] at h
  intro r
  cases r <;>
    simp [Player.deduct_resources, SETTLEMENT_COST, List.foldl_cons, List.foldl_nil,
      Resources.set, Resources.get] <;>
    omega

theorem deduct_city_cost_nonneg (p : Player) (hp : nonnegResources p)
    (h : p.has_resources CITY_COST = true) :
    ∀ r, 0 ≤ (p.deduct_resources CITY_COST).resources.get r := by
  have hb := hp .brick
  have hw := hp .wood
  have hs := hp .sheep
  have hh := hp .wheat
  have ho := hp .ore
  simp only [Resources.get] at hb hw hs hh ho
  simp [Player.has_resources, CITY_COST, Resources.get] at h
  intro r
  cases r <;>
    simp [Player.deduct_resources, CITY_COST, List.foldl_cons, List.foldl_nil,
      Resources.set, Resources.get] <;>
    omega

theorem deduct_road_cost_nonneg (p : Player) (hp : nonnegResources p)
    (h : p.has_resources ROAD_COST = true) :
    ∀ r, 0 ≤ (p.deduct_resources ROAD_COST).resources.get r := by
  have hb := hp .brick
  have hw := hp .wood
  have hs := hp .sheep
  have hh := hp .wheat
  have ho := hp .ore
  simp only [Resources.get] at hb hw hs hh ho
  simp [Player.has_resources, ROAD_COST, Resources.get] at h
  intro r
  cases r <;>
    simp [Player.deduct_resources, ROAD_COST, List.foldl_cons, List.foldl_nil,
      Resources.set, Resources.get] <;>
    omega

theorem sumResources_nonneg (p : Player) (hp : nonnegResources p) :
    0 ≤ sumResources p.resources := by
  have hb := hp .brick
  have hw := hp .wood
  have hs := hp .sheep
  have hh := hp .wheat
  have ho := hp .ore
  simp only [Resources.get] at hb hw hs hh ho
  rw [sumResources]
  omega

theorem build_settlement_nonneg (p : Player) (b : Board) (nid : Nat) (fv : Bool)
    (hp : nonnegResources p) (out : Bool × Player × Board)
    (h : p.build_settlement b nid fv = some out) : nonnegResources out.2.1 := by
  rcases build_settlement_spec p b nid fv out h with rfl | ⟨_, n, _, _, _, _, _, hres, _⟩
  · exact hp
  · rcases hres with he | ⟨hhas, he⟩
    · intro r
      rw [he]
      exact hp r
    · intro r
      rw [he]
      exact deduct_settlement_cost_nonneg p hp hhas r

theorem build_city_nonneg (p : Player) (b : Board) (nid : Nat)
    (hp : nonnegResources p) (out : Bool × Player × Board)
    (h : p.build_city b nid = some out) : nonnegResources out.2.1 := by
  rcases build_city_spec p b nid out h with rfl | ⟨_, n, _, _, _, _, _, hhas, he, _⟩
  · exact hp
  · intro r
    rw [he]
    exact deduct_city_cost_nonneg p hp hhas r

theorem build_road_nonneg (p : Player) (b : Board) (rid : Nat) (fr : Bool)
    (hp : nonnegResources p) (out : Bool × Player × Board)
    (h : p.build_road b rid fr = some out) : nonnegResources out.2.1 := by
  rcases build_road_spec p b rid fr out h with rfl | ⟨_, road, _, _, _, _, _, hres, _⟩
  · exact hp
  · rcases hres with he | ⟨hhas, he⟩
    · intro r
      rw [he]
      exact hp r
    · intro r
      rw [he]
      exact deduct_road_cost_nonneg p hp hhas r

theorem get_player_nonneg (g : Game) (h1 : nonnegResources g.p1) (h2 : nonnegResources g.p2)
    (pid : Nat) : nonnegResources (g.get_player pid) := by
  rw [Game.get_player]
  by_cases hp : (pid == 1) = true
  · rw [if_pos hp]
    exact h1
  · rw [if_neg hp]
    exact h2

/-- Claim C1 (amended): for every action other than trade_bank, whenever all
resource counts of both players are non-negative before the action, they
remain non-negative afterwards (builds deduct a cost vector only after
has_resources succeeded on the full vector), so each player's resource sum
stays ≥ 0; trade_bank deducts unconditionally and can drive the sum negative,
as the separate counterexample shows. -/
theorem advance_preserves_nonneg_without_bank_trade (g : Game) (a : Action)
    (ha : ∀ o w c, a ≠ Action.trade_bank o w c)
    (h1 : nonnegResources g.p1) (h2 : nonnegResources g.p2) :
    ∀ out, g.advance_one_action a = some out →
      nonnegResources out.1.p1 ∧ nonnegResources out.1.p2 ∧
      0 ≤ sumResources out.1.p1.resources ∧ 0 ≤ sumResources out.1.p2.resources := by
  intro out hout
  have main : nonnegResources out.1.p1 ∧ nonnegResources out.1.p2 := by
    rw [Game.advance_one_action.eq_def] at hout
    by_cases hfin : g.finished = true
    · rw [if_pos hfin] at hout
      rw [← Option.some.inj hout]
      exact ⟨h1, h2⟩
    · rw [if_neg hfin] at hout
      cases a with
      | start_turn roll =>
        dsimp only at hout
        rcases ht : g.turn_start roll with _ | g1 <;> rw [ht] at hout
        · exact Option.noConfusion hout
        · obtain ⟨_, _, _, _, _, hn1, hn2⟩ := turn_start_facts g roll g1 ht
          rw [← Option.some.inj hout]
          exact ⟨hn1 h1, hn2 h2⟩
      | build_settlement nid =>
        dsimp only at hout
        rcases hperf : g.perform_build_action (.build_settlement nid) with _ | gs <;>
          rw [hperf] at hout
        · exact Option.noConfusion hout
        · obtain ⟨g1, s⟩ := gs
          dsimp only at hout
          have hpost := advance_build_post g1 s (.build_settlement nid) out hout
          obtain ⟨pb, hb, hflag, hboard, hpos, hneg⟩ :=
            perform_build_settlement_char g nid (g1, s) hperf
          have hq : nonnegResources pb.2.1 :=
            build_settlement_nonneg _ _ _ _ (get_player_nonneg g h1 h2 _) pb hb
          constructor
          · rw [hpost.2.1]
            by_cases hcp : (g.current_player_id == 1) = true
            · rw [(hpos hcp).1]
              exact hq
            · rw [(hneg (by simpa using hcp)).1]
              exact h1
          · rw [hpost.2.2.1]
            by_cases hcp : (g.current_player_id == 1) = true
            · rw [(hpos hcp).2]
              exact h2
            · rw [(hneg (by simpa using hcp)).2]
              exact hq
      | build_city nid =>
        dsimp only at hout
        rcases hperf : g.perform_build_action (.build_city nid) with _ | gs <;>
          rw [hperf] at hout
        · exact Option.noConfusion hout
        · obtain ⟨g1, s⟩ := gs
          dsimp only at hout
          have hpost := advance_build_post g1 s (.build_city nid) out hout
          obtain ⟨pb, hb, hflag, hboard, hpos, hneg⟩ :=
            perform_build_city_char g nid (g1, s) hperf
          have hq : nonnegResources pb.2.1 :=
            build_city_nonneg _ _ _ (get_player_nonneg g h1 h2 _) pb hb
          constructor
          · rw [hpost.2.1]
            by_cases hcp : (g.current_player_id == 1) = true
            · rw [(hpos hcp).1]
              exact hq
            · rw [(hneg (by simpa using hcp)).1]
              exact h1
          · rw [hpost.2.2.1]
            by_cases hcp : (g.current_player_id == 1) = true
            · rw [(hpos hcp).2]
              exact h2
            · rw [(hneg (by simpa using hcp)).2]
              exact hq
      | build_road rid =>
        dsimp only at hout
        rcases hperf : g.perform_build_action (.build_road rid) with _ | gs <;>
          rw [hperf] at hout
        · exact Option.noConfusion hout
        · obtain ⟨g1, s⟩ := gs
          dsimp only at hout
          have hpost := advance_build_post g1 s (.build_road rid) out hout
          obtain ⟨pb, hb, hflag, hboard, hpos, hneg⟩ :=
            perform_build_road_char g rid (g1, s) hperf
          have hq : nonnegResources pb.2.1 :=
            build_road_nonneg _ _ _ _ (get_player_nonneg g h1 h2 _) pb hb
          constructor
          · rw [hpost.2.1]
            by_cases hcp : (g.current_player_id == 1) = true
            · rw [(hpos hcp).1]
              exact hq
            · rw [(hneg (by simpa using hcp)).1]
              exact h1
          · rw [hpost.2.2.1]
            by_cases hcp : (g.current_player_id == 1) = true
            · rw [(hpos hcp).2]
              exact h2
            · rw [(hneg (by simpa using hcp)).2]
              exact hq
      | end_turn =>
        dsimp only at hout
        by_cases ht : (g.turn_number != 1) = true
        · rw [if_pos ht] at hout
          rw [← Option.some.inj hout]
          exact ⟨h1, h2⟩
        · rw [if_neg ht] at hout
          rw [← Option.some.inj hout]
          exact ⟨h1, h2⟩
      | trade_bank o w c =>
        exact absurd rfl (ha o w c)
      | unknown =>
        dsimp only at hout
        rw [← Option.some.inj hout]
        exact ⟨h1, h2⟩
  exact ⟨main.1, main.2, sumResources_nonneg _ main.1, sumResources_nonneg _ main.2⟩

/-- Witness for claim C1's amended theorem: the unknown action on the fresh
game keeps both players' resource counts and sums non-negative. -/
theorem advance_preserves_nonneg_witness :
    nonnegResources (initGame emptyBoard, false).1.p1 ∧
    nonnegResources (initGame emptyBoard, false).1.p2 ∧
    0 ≤ sumResources (initGame emptyBoard, false).1.p1.resources ∧
    0 ≤ sumResources (initGame emptyBoard, false).1.p2.resources :=
  advance_preserves_nonneg_without_bank_trade (initGame emptyBoard) .unknown
    (fun o w c h => Action.noConfusion h)
    (fun r => by cases r <;> decide) (fun r => by cases r <;> decide)
    (initGame emptyBoard, false) rfl

/- ### Road ownership is immutable through the validated build pipeline -/

theorem build_preserves_road_owner (p : Player) (b : Board) (tid : Nat) (fv : Bool)
    (e k : Nat) (hk : k ≠ 0) (hown : (b.findRoad e).map Road.owner = some k) :
    (∀ out, p.build_settlement b tid fv = some out →
      (out.2.2.findRoad e).map Road.owner = some k) ∧
    (∀ out, p.build_city b tid = some out →
      (out.2.2.findRoad e).map Road.owner = some k) ∧
    (∀ out, p.build_road b tid fv = some out →
      (out.2.2.findRoad e).map Road.owner = some k) := by
  refine ⟨?_, ?_, ?_⟩
  · intro out h
    rcases build_settlement_spec p b tid fv out h with rfl | ⟨_, n, _, _, _, _, _, _, hbd⟩
    · exact hown
    · rw [hbd]
      exact hown
  · intro out h
    rcases build_city_spec p b tid out h with rfl | ⟨_, n, _, _, _, _, _, _, _, hbd⟩
    · exact hown
    · rw [hbd]
      exact hown
  · intro out h
    rcases build_road_spec p b tid fv out h with rfl | ⟨_, road, hr, how, _, _, _, _, hbd⟩
    · exact hown
    · rw [hbd]
      show ((updateFirstRoad (fun r => { r with owner := p.id }) b.roads tid).find?
        (fun r => r.id == e)).map Road.owner = some k
      rw [find?_updateFirstRoad (fun r => { r with owner := p.id }) (fun r => rfl) b.roads tid e]
      by_cases hte : tid = e
      · exfalso
        subst hte
        rw [hr] at hown
        have : road.owner = k := Option.some.inj hown
        rw [how] at this
        exact hk this.symm
      · rw [if_neg hte]
        exact hown

/-- Claim C3 (amended): the mutator Board.set_road itself overwrites owners
unconditionally (see the counterexample), but every road write that
advance_one_action performs goes through build_road, which requires
road_is_legal — hence an unowned edge — so an edge whose owner is already a
player k ≠ 0 keeps owner k across every action; by induction along any action
sequence, an owner once set never changes for the remainder of the game. -/
theorem road_owner_immutable_via_actions (g : Game) (a : Action) (e k : Nat) (hk : k ≠ 0)
    (hown : (g.board.findRoad e).map Road.owner = some k) :
    ∀ out, g.advance_one_action a = some out →
      (out.1.board.findRoad e).map Road.owner = some k := by
  intro out hout
  rw [Game.advance_one_action.eq_def] at hout
  by_cases hfin : g.finished = true
  · rw [if_pos hfin] at hout
    rw [← Option.some.inj hout]
    exact hown
  · rw [if_neg hfin] at hout
    cases a with
    | start_turn roll =>
      dsimp only at hout
      rcases ht : g.turn_start roll with _ | g1 <;> rw [ht] at hout
      · exact Option.noConfusion hout
      · rw [← Option.some.inj hout]
        show (g1.board.findRoad e).map Road.owner = some k
        rw [(turn_start_facts g roll g1 ht).1]
        exact hown
    | build_settlement nid =>
      dsimp only at hout
      rcases hperf : g.perform_build_action (.build_settlement nid) with _ | gs <;>
        rw [hperf] at hout
      · exact Option.noConfusion hout
      · obtain ⟨g1, s⟩ := gs
        dsimp only at hout
        have hpost := advance_build_post g1 s (.build_settlement nid) out hout
        obtain ⟨pb, hb, _, hboard, _, _⟩ := perform_build_settlement_char g nid (g1, s) hperf
        rw [hpost.1, hboard]
        exact (build_preserves_road_owner _ g.board nid _ e k hk hown).1 pb hb
    | build_city nid =>
      dsimp only at hout
      rcases hperf : g.perform_build_action (.build_city nid) with _ | gs <;>
        rw [hperf] at hout
      · exact Option.noConfusion hout
      · obtain ⟨g1, s⟩ := gs
        dsimp only at hout
        have hpost := advance_build_post g1 s (.build_city nid) out hout
        obtain ⟨pb, hb, _, hboard, _, _⟩ := perform_build_city_char g nid (g1, s) hperf
        rw [hpost.1, hboard]
        exact (build_preserves_road_owner _ g.board nid false e k hk hown).2.1 pb hb
    | build_road rid =>
      dsimp only at hout
      rcases hperf : g.perform_build_action (.build_road rid) with _ | gs <;>
        rw [hperf] at hout
      · exact Option.noConfusion hout
      · obtain ⟨g1, s⟩ := gs
        dsimp only at hout
        have hpost := advance_build_post g1 s (.build_road rid) out hout
        obtain ⟨pb, hb, _, hboard, _, _⟩ := perform_build_road_char g rid (g1, s) hperf
        rw [hpost.1, hboard]
        exact (build_preserves_road_owner _ g.board rid _ e k hk hown).2.2 pb hb
    | end_turn =>
      dsimp only at hout
      by_cases ht : (g.turn_number != 1) = true
      · rw [if_pos ht] at hout
        rw [← Option.some.inj hout]
        exact hown
      · rw [if_neg ht] at hout
        rw [← Option.some.inj hout]
        exact hown
    | trade_bank o w c =>
      dsimp only at hout
      rw [← Option.some.inj hout]
      show ((g.set_player g.current_player_id _).board.findRoad e).map Road.owner = some k
      rw [set_player_board]
      exact hown
    | unknown =>
      dsimp only at hout
      rw [← Option.some.inj hout]
      exact hown

/-- Witness for claim C3's amended theorem on a board whose road 0 is owned
by player 1: the unknown action leaves the owner at 1. -/
theorem road_owner_immutable_witness :
    ((initGame boardOwnedRoad, false).1.board.findRoad 0).map Road.owner = some 1 :=
  road_owner_immutable_via_actions (initGame boardOwnedRoad) .unknown 0 1
    (by decide) (by decide) (initGame boardOwnedRoad, false) rfl

/- ### Counting positions across the in-place occupancy updates -/

theorem countP_updateFirstNode (f : Node → Node) (l : List Node) (i : Nat)
    (q : Node → Bool) (n : Node) (hfind : l.find? (fun m => m.id == i) = some n) :
    (updateFirstNode f l i).countP q + (if q n then 1 else 0) =
      l.countP q + (if q (f n) then 1 else 0) := by
  induction l with
  | nil => exact absurd hfind (by simp)
  | cons m rest ih =>
    rw [updateFirstNode]
    by_cases hmi : (m.id == i) = true
    · rw [if_pos hmi]
      rw [find?_cons_pos (fun x => x.id == i) m rest hmi] at hfind
      have hmn : m = n := Option.some.inj hfind
      subst hmn
      rw [List.countP_cons, List.countP_cons]
      by_cases h1 : q (f m) = true <;> by_cases h2 : q m = true <;> simp [h1, h2] <;> omega
    · rw [if_neg hmi]
      rw [find?_cons_neg (fun x => x.id == i) m rest hmi] at hfind
      rw [List.countP_cons, List.countP_cons]
      have hr := ih hfind
      by_cases hm : q m = true <;> simp [hm] <;> omega

theorem countOwned_split (b : Board) (k : Nat) :
    countOwnedPositions b k = countSettlements b k + countCities b k := by
  unfold countOwnedPositions countSettlements countCities
  induction b.nodes with
  | nil => rfl
  | cons n rest ih =>
    rw [List.countP_cons, List.countP_cons, List.countP_cons]
    by_cases h1 : (n.occupant == k) = true <;> by_cases h2 : (n.occupant == k + 2) = true
    · exfalso
      have e1 := beq_iff_eq.mp h1
      have e2 := beq_iff_eq.mp h2
      omega
    · simp [h1, h2]
      omega
    · simp [h1, h2]
      omega
    · simp [h1, h2]
      omega

theorem counts_after_settlement (b : Board) (nid k ko : Nat) (n : Node)
    (hn : b.findNode nid = some n) (hocc : n.occupant = 0)
    (hk : (k = 1 ∧ ko = 2) ∨ (k = 2 ∧ ko = 1)) :
    countSettlements { b with nodes := updateFirstNode (fun m => { m with occupant := k }) b.nodes nid } k
      = countSettlements b k + 1 ∧
    countCities { b with nodes := updateFirstNode (fun m => { m with occupant := k }) b.nodes nid } k
      = countCities b k ∧
    countSettlements { b with nodes := updateFirstNode (fun m => { m with occupant := k }) b.nodes nid } ko
      = countSettlements b ko ∧
    countCities { b with nodes := updateFirstNode (fun m => { m with occupant := k }) b.nodes nid } ko
      = countCities b ko := by
  rw [Board.findNode] at hn
  rcases hk with ⟨rfl, rfl⟩ | ⟨rfl, rfl⟩
  · refine ⟨?_, ?_, ?_, ?_⟩
    · have h := countP_updateFirstNode (fun m => { m with occupant := 1 }) b.nodes nid
        (fun m => m.occupant == 1) n hn
      simpa [countSettlements, hocc] using h
    · have h := countP_updateFirstNode (fun m => { m with occupant := 1 }) b.nodes nid
        (fun m => m.occupant == 1 + 2) n hn
      simpa [countCities, hocc] using h
    · have h := countP_updateFirstNode (fun m => { m with occupant := 1 }) b.nodes nid
        (fun m => m.occupant == 2) n hn
      simpa [countSettlements, hocc] using h
    · have h := countP_updateFirstNode (fun m => { m with occupant := 1 }) b.nodes nid
        (fun m => m.occupant == 2 + 2) n hn
      simpa [countCities, hocc] using h
  · refine ⟨?_, ?_, ?_, ?_⟩
    · have h := countP_updateFirstNode (fun m => { m with occupant := 2 }) b.nodes nid
        (fun m => m.occupant == 2) n hn
      simpa [countSettlements, hocc] using h
    · have h := countP_updateFirstNode (fun m => { m with occupant := 2 }) b.nodes nid
        (fun m => m.occupant == 2 + 2) n hn
      simpa [countCities, hocc] using h
    · have h := countP_updateFirstNode (fun m => { m with occupant := 2 }) b.nodes nid
        (fun m => m.occupant == 1) n hn
      simpa [countSettlements, hocc] using h
    · have h := countP_updateFirstNode (fun m => { m with occupant := 2 }) b.nodes nid
        (fun m => m.occupant == 1 + 2) n hn
      simpa [countCities, hocc] using h

theorem counts_after_city (b : Board) (nid k ko : Nat) (n : Node)
    (hn : b.findNode nid = some n) (hocc : n.occupant = k)
    (hk : (k = 1 ∧ ko = 2) ∨ (k = 2 ∧ ko = 1)) :
    countSettlements { b with nodes := updateFirstNode (fun m => { m with occupant := m.occupant + 2 }) b.nodes nid } k + 1
      = countSettlements b k ∧
    countCities { b with nodes := updateFirstNode (fun m => { m with occupant := m.occupant + 2 }) b.nodes nid } k
      = countCities b k + 1 ∧
    countSettlements { b with nodes := updateFirstNode (fun m => { m with occupant := m.occupant + 2 }) b.nodes nid } ko
      = countSettlements b ko ∧
    countCities { b with nodes := updateFirstNode (fun m => { m with occupant := m.occupant + 2 }) b.nodes nid } ko
      = countCities b ko := by
  rw [Board.findNode] at hn
  rcases hk with ⟨rfl, rfl⟩ | ⟨rfl, rfl⟩
  · refine ⟨?_, ?_, ?_, ?_⟩
    · have h := countP_updateFirstNode (fun m => { m with occupant := m.occupant + 2 }) b.nodes nid
        (fun m => m.occupant == 1) n hn
      simpa [countSettlements, hocc] using h
    · have h := countP_updateFirstNode (fun m => { m with occupant := m.occupant + 2 }) b.nodes nid
        (fun m => m.occupant == 1 + 2) n hn
      simpa [countCities, hocc] using h
    · have h := countP_updateFirstNode (fun m => { m with occupant := m.occupant + 2 }) b.nodes nid
        (fun m => m.occupant == 2) n hn
      simpa [countSettlements, hocc] using h
    · have h := countP_updateFirstNode (fun m => { m with occupant := m.occupant + 2 }) b.nodes nid
        (fun m => m.occupant == 2 + 2) n hn
      simpa [countCities, hocc] using h
  · refine ⟨?_, ?_, ?_, ?_⟩
    · have h := countP_updateFirstNode (fun m => { m with occupant := m.occupant + 2 }) b.nodes nid
        (fun m => m.occupant == 2) n hn
      simpa [countSettlements, hocc] using h
    · have h := countP_updateFirstNode (fun m => { m with occupant := m.occupant + 2 }) b.nodes nid
        (fun m => m.occupant == 2 + 2) n hn
      simpa [countCities, hocc] using h
    · have h := countP_updateFirstNode (fun m => { m with occupant := m.occupant + 2 }) b.nodes nid
        (fun m => m.occupant == 1) n hn
      simpa [countSettlements, hocc] using h
    · have h := countP_updateFirstNode (fun m => { m with occupant := m.occupant + 2 }) b.nodes nid
        (fun m => m.occupant == 1 + 2) n hn
      simpa [countCities, hocc] using h

/-- Claim C8 (amended): after every action, each player's built settlement
counter equals the number of positions holding that player's settlement
marker and the built city counter equals the number holding the city marker
(a city upgrade transforms one position in place), so built settlements +
built cities equals the number of owned positions; the claimed inequality
settlements + 2*cities ≤ owned positions fails once a city exists, because a
city occupies one position but contributes 2 — see the counterexample. -/
theorem built_counts_match_board (g : Game) (a : Action) (hbm : builtMatches g) :
    ∀ out, g.advance_one_action a = some out →
      builtMatches out.1 ∧
      out.1.p1.built.settlements + out.1.p1.built.cities =
        (countOwnedPositions out.1.board 1 : Int) ∧
      out.1.p2.built.settlements + out.1.p2.built.cities =
        (countOwnedPositions out.1.board 2 : Int) := by
  intro out hout
  obtain ⟨hid1, hid2, hs1, hc1, hs2, hc2⟩ := hbm
  have main : builtMatches out.1 := by
    rw [Game.advance_one_action.eq_def] at hout
    by_cases hfin : g.finished = true
    · rw [if_pos hfin] at hout
      rw [← Option.some.inj hout]
      exact ⟨hid1, hid2, hs1, hc1, hs2, hc2⟩
    · rw [if_neg hfin] at hout
      cases a with
      | start_turn roll =>
        dsimp only at hout
        rcases ht : g.turn_start roll with _ | g1 <;> rw [ht] at hout
        · exact Option.noConfusion hout
        · obtain ⟨hbd, hb1, hb2, hi1, hi2, _, _⟩ := turn_start_facts g roll g1 ht
          rw [← Option.some.inj hout]
          refine ⟨hi1.trans hid1, hi2.trans hid2, ?_, ?_, ?_, ?_⟩
          · rw [hb1, hbd]
            exact hs1
          · rw [hb1, hbd]
            exact hc1
          · rw [hb2, hbd]
            exact hs2
          · rw [hb2, hbd]
            exact hc2
      | build_settlement nid =>
        dsimp only at hout
        rcases hperf : g.perform_build_action (.build_settlement nid) with _ | gs <;>
          rw [hperf] at hout
        · exact Option.noConfusion hout
        · obtain ⟨g1, s⟩ := gs
          dsimp only at hout
          obtain ⟨hpb, hpp1, hpp2, _⟩ := advance_build_post g1 s (.build_settlement nid) out hout
          obtain ⟨pb, hb, _, hboard, hpos, hneg⟩ :=
            perform_build_settlement_char g nid (g1, s) hperf
          by_cases hcp : (g.current_player_id == 1) = true
          · have hgp : g.get_player g.current_player_id = g.p1 := by
              rw [Game.get_player, if_pos hcp]
            rw [hgp] at hb
            obtain ⟨e1, e2⟩ := hpos hcp
            rcases build_settlement_spec g.p1 g.board nid _ pb hb with rfl |
                ⟨_, n, hn, hocc, hqid, hqs, hqc, _, hbd⟩
            · exact ⟨by rw [hpp1, e1]; exact hid1, by rw [hpp2, e2]; exact hid2,
                by rw [hpp1, e1, hpb, hboard]; exact hs1,
                by rw [hpp1, e1, hpb, hboard]; exact hc1,
                by rw [hpp2, e2, hpb, hboard]; exact hs2,
                by rw [hpp2, e2, hpb, hboard]; exact hc2⟩
            · rw [hid1] at hbd hqid
              obtain ⟨ca, cb, cc, cd⟩ :=
                counts_after_settlement g.board nid 1 2 n hn hocc (Or.inl ⟨rfl, rfl⟩)
              have hob : out.1.board =
                  { g.board with nodes :=
                    (updateFirstNode (fun m => { m with occupant := 1 }) g.board.nodes nid) } := by
                rw [hpb, hboard, hbd]
              refine ⟨by rw [hpp1, e1]; exact hqid, by rw [hpp2, e2]; exact hid2, ?_, ?_, ?_, ?_⟩
              · rw [hpp1, e1, hqs, hob, ca]
                push_cast
                omega
              · rw [hpp1, e1, hqc, hob, cb]
                exact hc1
              · rw [hpp2, e2, hob, cc]
                exact hs2
              · rw [hpp2, e2, hob, cd]
                exact hc2
          · have hgp : g.get_player g.current_player_id = g.p2 := by
              rw [Game.get_player, if_neg hcp]
            rw [hgp] at hb
            obtain ⟨e1, e2⟩ := hneg (by simpa using hcp)
            rcases build_settlement_spec g.p2 g.board nid _ pb hb with rfl |
                ⟨_, n, hn, hocc, hqid, hqs, hqc, _, hbd⟩
            · exact ⟨by rw [hpp1, e1]; exact hid1, by rw [hpp2, e2]; exact hid2,
                by rw [hpp1, e1, hpb, hboard]; exact hs1,
                by rw [hpp1, e1, hpb, hboard]; exact hc1,
                by rw [hpp2, e2, hpb, hboard]; exact hs2,
                by rw [hpp2, e2, hpb, hboard]; exact hc2⟩
            · rw [hid2] at hbd hqid
              obtain ⟨ca, cb, cc, cd⟩ :=
                counts_after_settlement g.board nid 2 1 n hn hocc (Or.inr ⟨rfl, rfl⟩)
              have hob : out.1.board =
                  { g.board with nodes :=
                    (updateFirstNode (fun m => { m with occupant := 2 }) g.board.nodes nid) } := by
                rw [hpb, hboard, hbd]
              refine ⟨by rw [hpp1, e1]; exact hid1, by rw [hpp2, e2]; exact hqid, ?_, ?_, ?_, ?_⟩
              · rw [hpp1, e1, hob, cc]
                exact hs1
              · rw [hpp1, e1, hob, cd]
                exact hc1
              · rw [hpp2, e2, hqs, hob, ca]
                push_cast
                omega
              · rw [hpp2, e2, hqc, hob, cb]
                exact hc2
      | build_city nid =>
        dsimp only at hout
        rcases hperf : g.perform_build_action (.build_city nid) with _ | gs <;>
          rw [hperf] at hout
        · exact Option.noConfusion hout
        · obtain ⟨g1, s⟩ := gs
          dsimp only at hout
          obtain ⟨hpb, hpp1, hpp2, _⟩ := advance_build_post g1 s (.build_city nid) out hout
          obtain ⟨pb, hb, _, hboard, hpos, hneg⟩ :=
            perform_build_city_char g nid (g1, s) hperf
          by_cases hcp : (g.current_player_id == 1) = true
          · have hgp : g.get_player g.current_player_id = g.p1 := by
              rw [Game.get_player, if_pos hcp]
            rw [hgp] at hb
            obtain ⟨e1, e2⟩ := hpos hcp
            rcases build_city_spec g.p1 g.board nid pb hb with rfl |
                ⟨_, n, hn, hocc, hqid, hqs, hqc, _, _, hbd⟩
            · exact ⟨by rw [hpp1, e1]; exact hid1, by rw [hpp2, e2]; exact hid2,
                by rw [hpp1, e1, hpb, hboard]; exact hs1,
                by rw [hpp1, e1, hpb, hboard]; exact hc1,
                by rw [hpp2, e2, hpb, hboard]; exact hs2,
                by rw [hpp2, e2, hpb, hboard]; exact hc2⟩
            · rw [hid1] at hocc hqid
              obtain ⟨ca, cb, cc, cd⟩ :=
                counts_after_city g.board nid 1 2 n hn hocc (Or.inl ⟨rfl, rfl⟩)
              have hob : out.1.board =
                  { g.board with nodes :=
                    (updateFirstNode (fun m => { m with occupant := m.occupant + 2 })
                      g.board.nodes nid) } := by
                rw [hpb, hboard, hbd]
              refine ⟨by rw [hpp1, e1]; exact hqid, by rw [hpp2, e2]; exact hid2, ?_, ?_, ?_, ?_⟩
              · rw [hpp1, e1, hqs, hob]
                have := ca
                push_cast [← ca]
                omega
              · rw [hpp1, e1, hqc, hob, cb]
                push_cast
                omega
              · rw [hpp2, e2, hob, cc]
                exact hs2
              · rw [hpp2, e2, hob, cd]
                exact hc2
          · have hgp : g.get_player g.current_player_id = g.p2 := by
              rw [Game.get_player, if_neg hcp]
            rw [hgp] at hb
            obtain ⟨e1, e2⟩ := hneg (by simpa using hcp)
            rcases build_city_spec g.p2 g.board nid pb hb with rfl |
                ⟨_, n, hn, hocc, hqid, hqs, hqc, _, _, hbd⟩
            · exact ⟨by rw [hpp1, e1]; exact hid1, by rw [hpp2, e2]; exact hid2,
                by rw [hpp1, e1, hpb, hboard]; exact hs1,
                by rw [hpp1, e1, hpb, hboard]; exact hc1,
                by rw [hpp2, e2, hpb, hboard]; exact hs2,
                by rw [hpp2, e2, hpb, hboard]; exact hc2⟩
            · rw [hid2] at hocc hqid
              obtain ⟨ca, cb, cc, cd⟩ :=
                counts_after_city g.board nid 2 1 n hn hocc (Or.inr ⟨rfl, rfl⟩)
              have hob : out.1.board =
                  { g.board with nodes :=
                    (updateFirstNode (fun m => { m with occupant := m.occupant + 2 })
                      g.board.nodes nid) } := by
                rw [hpb, hboard, hbd]
              refine ⟨by rw [hpp1, e1]; exact hid1, by rw [hpp2, e2]; exact hqid, ?_, ?_, ?_, ?_⟩
              · rw [hpp1, e1, hob, cc]
                exact hs1
              · rw [hpp1, e1, hob, cd]
                exact hc1
              · rw [hpp2, e2, hqs, hob]
                push_cast [← ca]
                omega
              · rw [hpp2, e2, hqc, hob, cb]
                push_cast
                omega
      | build_road rid =>
        dsimp only at hout
        rcases hperf : g.perform_build_action (.build_road rid) with _ | gs <;>
          rw [hperf] at hout
        · exact Option.noConfusion hout
        · obtain ⟨g1, s⟩ := gs
          dsimp only at hout
          obtain ⟨hpb, hpp1, hpp2, _⟩ := advance_build_post g1 s (.build_road rid) out hout
          obtain ⟨pb, hb, _, hboard, hpos, hneg⟩ :=
            perform_build_road_char g rid (g1, s) hperf
          by_cases hcp : (g.current_player_id == 1) = true
          · have hgp : g.get_player g.current_player_id = g.p1 := by
              rw [Game.get_player, if_pos hcp]
            rw [hgp] at hb
            obtain ⟨e1, e2⟩ := hpos hcp
            rcases build_road_spec g.p1 g.board rid _ pb hb with rfl |
                ⟨_, road, hr, how, hqid, hqs, hqc, _, hbd⟩
            · exact ⟨by rw [hpp1, e1]; exact hid1, by rw [hpp2, e2]; exact hid2,
                by rw [hpp1, e1, hpb, hboard]; exact hs1,
                by rw [hpp1, e1, hpb, hboard]; exact hc1,
                by rw [hpp2, e2, hpb, hboard]; exact hs2,
                by rw [hpp2, e2, hpb, hboard]; exact hc2⟩
            · refine ⟨by rw [hpp1, e1, hqid]; exact hid1, by rw [hpp2, e2]; exact hid2,
                ?_, ?_, ?_, ?_⟩
              · rw [hpp1, e1, hqs, hpb, hboard, hbd]
                exact hs1
              · rw [hpp1, e1, hqc, hpb, hboard, hbd]
                exact hc1
              · rw [hpp2, e2, hpb, hboard, hbd]
                exact hs2
              · rw [hpp2, e2, hpb, hboard, hbd]
                exact hc2
          · have hgp : g.get_player g.current_player_id = g.p2 := by
              rw [Game.get_player, if_neg hcp]
            rw [hgp] at hb
            obtain ⟨e1, e2⟩ := hneg (by simpa using hcp)
            rcases build_road_spec g.p2 g.board rid _ pb hb with rfl |
                ⟨_, road, hr, how, hqid, hqs, hqc, _, hbd⟩
            · exact ⟨by rw [hpp1, e1]; exact hid1, by rw [hpp2, e2]; exact hid2,
                by rw [hpp1, e1, hpb, hboard]; exact hs1,
                by rw [hpp1, e1, hpb, hboard]; exact hc1,
                by rw [hpp2, e2, hpb, hboard]; exact hs2,
                by rw [hpp2, e2, hpb, hboard]; exact hc2⟩
            · refine ⟨by rw [hpp1, e1]; exact hid1, by rw [hpp2, e2, hqid]; exact hid2,
                ?_, ?_, ?_, ?_⟩
              · rw [hpp1, e1, hpb, hboard, hbd]
                exact hs1
              · rw [hpp1, e1, hpb, hboard, hbd]
                exact hc1
              · rw [hpp2, e2, hqs, hpb, hboard, hbd]
                exact hs2
              · rw [hpp2, e2, hqc, hpb, hboard, hbd]
                exact hc2
      | end_turn =>
        dsimp only at hout
        by_cases ht : (g.turn_number != 1) = true
        · rw [if_pos ht] at hout
          rw [← Option.some.inj hout]
          exact ⟨hid1, hid2, hs1, hc1, hs2, hc2⟩
        · rw [if_neg ht] at hout
          rw [← Option.some.inj hout]
          exact ⟨hid1, hid2, hs1, hc1, hs2, hc2⟩
      | trade_bank o w c =>
        dsimp only at hout
        rw [← Option.some.inj hout]
        by_cases hcp : (g.current_player_id == 1) = true
        · have hx : g.set_player g.current_player_id
              (handle_bank_trade (g.get_player g.current_player_id) o w c) =
              { g with p1 := handle_bank_trade g.p1 o w c } := by
            simp [Game.set_player, Game.get_player, hcp]
          rw [hx]
          exact ⟨(handle_bank_trade_fields g.p1 o w c).1.trans hid1, hid2,
            by rw [(handle_bank_trade_fields g.p1 o w c).2]; exact hs1,
            by rw [(handle_bank_trade_fields g.p1 o w c).2]; exact hc1, hs2, hc2⟩
        · have hx : g.set_player g.current_player_id
              (handle_bank_trade (g.get_player g.current_player_id) o w c) =
              { g with p2 := handle_bank_trade g.p2 o w c } := by
            simp [Game.set_player, Game.get_player, hcp]
          rw [hx]
          exact ⟨hid1, (handle_bank_trade_fields g.p2 o w c).1.trans hid2, hs1, hc1,
            by rw [(handle_bank_trade_fields g.p2 o w c).2]; exact hs2,
            by rw [(handle_bank_trade_fields g.p2 o w c).2]; exact hc2⟩
      | unknown =>
        dsimp only at hout
        rw [← Option.some.inj hout]
        exact ⟨hid1, hid2, hs1, hc1, hs2, hc2⟩
  have main2 := main
  obtain ⟨_, _, ms1, mc1, ms2, mc2⟩ := main2
  refine ⟨main, ?_, ?_⟩
  · rw [ms1, mc1, countOwned_split out.1.board 1]
    push_cast
    ring
  · rw [ms2, mc2, countOwned_split out.1.board 2]
    push_cast
    ring

/-- Witness for claim C8's amended theorem at the fresh game (all counters
and counts zero) under the unknown action. -/
theorem built_counts_match_board_witness :
    builtMatches (initGame emptyBoard, false).1 ∧
    (initGame emptyBoard, false).1.p1.built.settlements +
        (initGame emptyBoard, false).1.p1.built.cities =
      (countOwnedPositions (initGame emptyBoard, false).1.board 1 : Int) ∧
    (initGame emptyBoard, false).1.p2.built.settlements +
        (initGame emptyBoard, false).1.p2.built.cities =
      (countOwnedPositions (initGame emptyBoard, false).1.board 2 : Int) :=
  built_counts_match_board (initGame emptyBoard) .unknown
    ⟨rfl, rfl, by decide, by decide, by decide, by decide⟩
    (initGame emptyBoard, false) rfl

end Catan
